import Mathlib

/-!
Shallow embedding of the vi-mode.js command-resolution core: line buffer,
cursor, motion table, operator engine (delete/yank over motions or line
counts), register, undo manager with compound insert sessions, per-mode
key resolvers and the controller event loop.  Lines are lists of
characters; a buffer is the ordered list of its lines.  JavaScript
numbers that the source keeps non-negative are modelled as `Nat`;
`Math.max(0, a - b)` coincides with truncated subtraction.  Stacks grow
at the head (JS arrays push/pop at the end).
-/

namespace ViMode

abbrev Line := List Char
abbrev Buffer := List Line

/-- utils.ts clampNumber: `Math.min(Math.max(value, min), max)`. -/
def clampNumber (value lo hi : Nat) : Nat := min (max value lo) hi

inductive Mode where
  | insert
  | normal
  | visualCharacter
  | visualLine
deriving DecidableEq, Repr

structure CursorPosition where
  row : Nat
  col : Nat
deriving DecidableEq, Repr

inductive SelType where
  | character
  | line
deriving DecidableEq, Repr

structure VisualSelection where
  selType : SelType
  anchor : CursorPosition
deriving DecidableEq, Repr

structure EditorSnapshot where
  content : List Char
  cursor : CursorPosition
  mode : Mode
  selection : Option VisualSelection
deriving DecidableEq, Repr

/- Buffer contract, with the array-of-lines semantics of EditorBuffer. -/

def lineCount (b : Buffer) : Nat := b.length

def getLineText (b : Buffer) (row : Nat) : Line := b.getD row []

def getLineLength (b : Buffer) (row : Nat) : Nat := (getLineText b row).length

def setLineText (b : Buffer) (row : Nat) (text : Line) : Buffer := b.set row text

def insertLineAfter (b : Buffer) (row : Nat) (text : Line) : Buffer :=
  b.insertIdx (row + 1) text

def insertLineBefore (b : Buffer) (row : Nat) (text : Line) : Buffer :=
  b.insertIdx row text

def removeLine (b : Buffer) (row : Nat) : Buffer := b.eraseIdx row

def extractContent (b : Buffer) : List Char := List.intercalate (List.cons '\n' []) b

def replaceContent (text : List Char) : Buffer := text.splitOn '\n'

/-- JS `s.slice(a, b)` for `0 ≤ a ≤ b ≤ s.length` (out-of-range safe). -/
def lineSlice (t : Line) (a b : Nat) : Line := (t.drop a).take (b - a)

structure EditorState where
  mode : Mode
  cursor : CursorPosition
  buffer : Buffer
  selection : Option VisualSelection
deriving DecidableEq, Repr

/- CursorState methods (cursor-state.ts). -/

def clampToBuffer (p : CursorPosition) (b : Buffer) : CursorPosition :=
  let maxRow := lineCount b - 1
  let clampedRow := min (max p.row 0) maxRow
  let clampedCol := min (max p.col 0) (getLineLength b clampedRow)
  ⟨clampedRow, clampedCol⟩

def setPosition (row col : Nat) (b : Buffer) : CursorPosition :=
  clampToBuffer ⟨row, col⟩ b

def setFromSnapshot (p : CursorPosition) (b : Buffer) : CursorPosition :=
  clampToBuffer p b

def moveRight (p : CursorPosition) (b : Buffer) : CursorPosition :=
  ⟨p.row, min (getLineLength b p.row) (p.col + 1)⟩

def moveToLineEnd (p : CursorPosition) (b : Buffer) : CursorPosition :=
  ⟨p.row, getLineLength b p.row⟩

/- Motion table (motions.ts). -/

inductive MotionRange where
  | line (startRow endRow : Nat)
  | character (row startCol endCol : Nat)
deriving DecidableEq, Repr

structure MotionDefinition where
  move : EditorState → Nat → EditorState
  toRange : EditorState → Nat → MotionRange

def hMotion : MotionDefinition where
  move s count :=
    let targetCol := s.cursor.col - max 1 count
    { s with cursor := setPosition s.cursor.row targetCol s.buffer }
  toRange s count :=
    let targetCol := s.cursor.col - max 1 count
    .character s.cursor.row targetCol s.cursor.col

def lMotion : MotionDefinition where
  move s count :=
    let lineLength := getLineLength s.buffer s.cursor.row
    let targetCol := min lineLength (s.cursor.col + max 1 count)
    { s with cursor := setPosition s.cursor.row targetCol s.buffer }
  toRange s count :=
    let lineLength := getLineLength s.buffer s.cursor.row
    let targetCol := min lineLength (s.cursor.col + max 1 count)
    .character s.cursor.row s.cursor.col targetCol

def jMotion : MotionDefinition where
  move s count :=
    let targetRow := clampNumber (s.cursor.row + max 1 count) 0 (lineCount s.buffer - 1)
    { s with cursor := setPosition targetRow s.cursor.col s.buffer }
  toRange s count :=
    let lastRow := lineCount s.buffer - 1
    let endRow := clampNumber (s.cursor.row + max 1 count - 1) 0 lastRow
    .line s.cursor.row endRow

def kMotion : MotionDefinition where
  move s count :=
    let targetRow := clampNumber (s.cursor.row - max 1 count) 0 (lineCount s.buffer - 1)
    { s with cursor := setPosition targetRow s.cursor.col s.buffer }
  toRange s count :=
    let startRow := clampNumber (s.cursor.row - (max 1 count - 1)) 0 s.cursor.row
    .line startRow s.cursor.row

def zeroMotion : MotionDefinition where
  move s _ := { s with cursor := setPosition s.cursor.row 0 s.buffer }
  toRange s _ := .character s.cursor.row 0 s.cursor.col

def dollarMotion : MotionDefinition where
  move s _ :=
    let lineLength := getLineLength s.buffer s.cursor.row
    { s with cursor :=
        setPosition s.cursor.row (if lineLength = 0 then 0 else lineLength - 1) s.buffer }
  toRange s _ :=
    let lineLength := getLineLength s.buffer s.cursor.row
    let safeCol := if lineLength = 0 then 0 else min s.cursor.col (max 0 (lineLength - 1))
    .character s.cursor.row safeCol lineLength

def motions (key : String) : Option MotionDefinition :=
  if key = "h" then some hMotion
  else if key = "l" then some lMotion
  else if key = "j" then some jMotion
  else if key = "k" then some kMotion
  else if key = "0" then some zeroMotion
  else if key = "$" then some dollarMotion
  else none

/- Keyboard events and the key encoder (utils.ts makeKey). -/

structure KeyEvent where
  key : String
  ctrlKey : Bool := false
  altKey : Bool := false
  metaKey : Bool := false
deriving DecidableEq, Repr

def makeKey (ev : KeyEvent) : String :=
  String.intercalate "+"
    ((if ev.ctrlKey then ["Ctrl"] else []) ++
     (if ev.altKey then ["Alt"] else []) ++
     (if ev.metaKey then ["Meta"] else []) ++ [ev.key])

def keyEv (k : String) : KeyEvent := ⟨k, false, false, false⟩

def charEvent (ch : Char) : KeyEvent := ⟨String.singleton ch, false, false, false⟩

def isPureModifier (k : String) : Bool :=
  k = "Shift" ∨ k = "Control" ∨ k = "Alt" ∨ k = "Meta"

/-- The `/^[0-9]$/` test of the resolvers. -/
def isDigitKey (k : String) : Bool :=
  match k.data with
  | [c] => '0' ≤ c ∧ c ≤ '9'
  | _ => false

/-- `Number` applied to a non-empty string of decimal digits. -/
def parseDigits (cb : List Char) : Nat :=
  cb.foldl (fun n c => 10 * n + (c.toNat - 48)) 0

/-- consumeCountOrOne: empty count buffer parses to `NaN` and yields 1. -/
def consumeCount (cb : List Char) : Nat :=
  if cb = [] then 1 else parseDigits cb

/- UndoManager (undo-manager.ts).  Stack top at the list head. -/

structure UndoManagerState where
  undoStack : List EditorSnapshot
  redoStack : List EditorSnapshot
  pendingSnapshot : Option EditorSnapshot
deriving DecidableEq, Repr

def createSnapshot (s : EditorState) : EditorSnapshot :=
  ⟨extractContent s.buffer, s.cursor, s.mode, s.selection⟩

def recordChange (u : UndoManagerState) (previousSnapshot : EditorSnapshot)
    (s : EditorState) : UndoManagerState :=
  if previousSnapshot.content ≠ extractContent s.buffer then
    { u with undoStack := previousSnapshot :: u.undoStack, redoStack := [] }
  else u

def beginCompound (u : UndoManagerState) (s : EditorState) : UndoManagerState :=
  match u.pendingSnapshot with
  | none => { u with pendingSnapshot := some (createSnapshot s) }
  | some _ => u

def commitCompoundIfChanged (u : UndoManagerState) (s : EditorState) : UndoManagerState :=
  match u.pendingSnapshot with
  | none => u
  | some p => { recordChange u p s with pendingSnapshot := none }

def hasPendingCompound (u : UndoManagerState) : Bool :=
  u.pendingSnapshot ≠ none

def applySnapshot (_s : EditorState) (snap : EditorSnapshot) : EditorState :=
  let buffer := replaceContent snap.content
  { mode := snap.mode,
    selection := snap.selection,
    buffer := buffer,
    cursor := setFromSnapshot snap.cursor buffer }

def undo (u : UndoManagerState) (s : EditorState) :
    Bool × UndoManagerState × EditorState :=
  match u.undoStack with
  | [] => (false, u, s)
  | snap :: rest =>
    (true,
     { u with undoStack := rest, redoStack := createSnapshot s :: u.redoStack },
     applySnapshot s snap)

def redo (u : UndoManagerState) (s : EditorState) :
    Bool × UndoManagerState × EditorState :=
  match u.redoStack with
  | [] => (false, u, s)
  | snap :: rest =>
    (true,
     { u with redoStack := rest, undoStack := createSnapshot s :: u.undoStack },
     applySnapshot s snap)

/-- buildUndoCommand loop: undo up to `n` times, stopping at the first failure. -/
def undoTimes : Nat → UndoManagerState → EditorState → UndoManagerState × EditorState
  | 0, u, s => (u, s)
  | n + 1, u, s =>
    match undo u s with
    | (false, u1, s1) => (u1, s1)
    | (true, u1, s1) => undoTimes n u1 s1

def redoTimes : Nat → UndoManagerState → EditorState → UndoManagerState × EditorState
  | 0, u, s => (u, s)
  | n + 1, u, s =>
    match redo u s with
    | (false, u1, s1) => (u1, s1)
    | (true, u1, s1) => redoTimes n u1 s1

/- Operator engine (command-resolvers.ts private helpers). -/

/-- The `for (i = lo; i <= hi; i++) lines.push(getLineText(i))` collection. -/
def collectLines (b : Buffer) (lo hi : Nat) : List Line :=
  (List.range' lo (hi + 1 - lo)).map (getLineText b)

/-- `n` repetitions of `removeLine(row)`. -/
def removeLinesAt : Buffer → Nat → Nat → Buffer
  | b, _, 0 => b
  | b, row, n + 1 => removeLinesAt (removeLine b row) row n

def deleteLineRange (s : EditorState) (startRow endRow : Nat) :
    EditorState × List Char :=
  let normalizedStart := max 0 (min startRow endRow)
  let normalizedEnd := clampNumber (max startRow endRow) normalizedStart (lineCount s.buffer - 1)
  let reg := List.intercalate (List.cons '\n' []) (collectLines s.buffer normalizedStart normalizedEnd)
      ++ List.cons '\n' []
  let b1 := removeLinesAt s.buffer normalizedStart (normalizedEnd + 1 - normalizedStart)
  let b2 := if lineCount b1 = 0 then replaceContent [] else b1
  let targetRow := clampNumber normalizedStart 0 (lineCount b2 - 1)
  let targetCol := min s.cursor.col (getLineLength b2 targetRow)
  ({ s with buffer := b2, cursor := setPosition targetRow targetCol b2 }, reg)

def yankLineRange (s : EditorState) (startRow endRow : Nat) : List Char :=
  let normalizedStart := max 0 (min startRow endRow)
  let normalizedEnd := clampNumber (max startRow endRow) normalizedStart (lineCount s.buffer - 1)
  List.intercalate (List.cons '\n' []) (collectLines s.buffer normalizedStart normalizedEnd)
    ++ List.cons '\n' []

def deleteCharacterRange (s : EditorState) (reg : List Char) (row startCol endCol : Nat) :
    EditorState × List Char :=
  let lineText := getLineText s.buffer row
  let clampedStart := clampNumber startCol 0 lineText.length
  let clampedEnd := clampNumber endCol clampedStart lineText.length
  if clampedStart = clampedEnd then (s, reg)
  else
    let updated := lineText.take clampedStart ++ lineText.drop clampedEnd
    let b1 := setLineText s.buffer row updated
    ({ s with buffer := b1, cursor := setPosition row clampedStart b1 },
     lineSlice lineText clampedStart clampedEnd)

def yankCharacterRange (s : EditorState) (reg : List Char) (row startCol endCol : Nat) :
    List Char :=
  let lineText := getLineText s.buffer row
  let clampedStart := clampNumber startCol 0 lineText.length
  let clampedEnd := clampNumber endCol clampedStart lineText.length
  if clampedStart = clampedEnd then reg
  else lineSlice lineText clampedStart clampedEnd

/- Selection normalization, register copy, selection delete and paste
   (ViModeController private methods). -/

inductive NormalizedSelectionRange where
  | line (startRow endRow : Nat)
  | character (startRow startCol endRow endCol : Nat)
deriving DecidableEq, Repr

def getSelectionRange (s : EditorState) : Option NormalizedSelectionRange :=
  match s.selection with
  | none => none
  | some sel =>
    let anchor := sel.anchor
    let head := s.cursor
    match sel.selType with
    | .line => some (.line (min anchor.row head.row) (max anchor.row head.row))
    | .character =>
      let anchorIsTop : Bool :=
        anchor.row < head.row ∨ (anchor.row = head.row ∧ anchor.col ≤ head.col)
      let start := if anchorIsTop then anchor else head
      let stop := if anchorIsTop then head else anchor
      some (.character start.row start.col stop.row (stop.col + 1))

def copySelectionToRegister (s : EditorState) (reg : List Char) : List Char :=
  match getSelectionRange s with
  | none => reg
  | some (.line startRow endRow) =>
    List.intercalate (List.cons '\n' []) (collectLines s.buffer startRow endRow)
      ++ List.cons '\n' []
  | some (.character startRow startCol endRow endCol) =>
    if startRow = endRow then
      let line := getLineText s.buffer startRow
      lineSlice line startCol (min line.length endCol)
    else
      let startLine := getLineText s.buffer startRow
      let mids := (List.range' (startRow + 1) (endRow - (startRow + 1))).map (getLineText s.buffer)
      let endLine := getLineText s.buffer endRow
      List.intercalate (List.cons '\n' [])
        ([startLine.drop startCol] ++ mids ++ [endLine.take (min endLine.length endCol)])

def deleteSelectionInBuffer (s : EditorState) (range : NormalizedSelectionRange) :
    EditorState :=
  match range with
  | .line startRow endRow =>
    let start := max 0 startRow
    let stop := clampNumber endRow start (lineCount s.buffer - 1)
    let b1 := removeLinesAt s.buffer start (stop + 1 - start)
    let b2 := if lineCount b1 = 0 then replaceContent [] else b1
    { s with buffer := b2, cursor := setPosition (min start (lineCount b2 - 1)) 0 b2 }
  | .character startRow startCol endRow endCol =>
    if startRow = endRow then
      let line := getLineText s.buffer startRow
      let newText := line.take startCol ++ line.drop (min line.length endCol)
      let b1 := setLineText s.buffer startRow newText
      { s with buffer := b1, cursor := setPosition startRow startCol b1 }
    else
      let startLine := getLineText s.buffer startRow
      let endLine := getLineText s.buffer endRow
      let tail := endLine.drop (min endLine.length endCol)
      let b1 := setLineText s.buffer startRow (startLine.take startCol ++ tail)
      let b2 := removeLinesAt b1 (startRow + 1) (endRow - startRow)
      { s with buffer := b2, cursor := setPosition startRow startCol b2 }

/-- The `insertLineAfter(current, line); current += 1` loop of linewise paste,
    also the middle-lines loop of insertTextAtPosition. -/
def insertLinesAfterSeq : Buffer → Nat → List Line → Buffer
  | b, _, [] => b
  | b, cur, l :: ls => insertLinesAfterSeq (insertLineAfter b cur l) (cur + 1) ls

/-- The `insertLineBefore(insertRow + i, lines[i])` loop of linewise paste. -/
def insertLinesBeforeSeq : Buffer → Nat → List Line → Buffer
  | b, _, [] => b
  | b, r, l :: ls => insertLinesBeforeSeq (insertLineBefore b r l) (r + 1) ls

def insertTextAtPosition (s : EditorState) (row col : Nat) (text : List Char) :
    EditorState :=
  let lines := text.splitOn '\n'
  let original := getLineText s.buffer row
  let clampedCol := clampNumber col 0 original.length
  if lines.length = 1 then
    let newLine := original.take clampedCol ++ text ++ original.drop clampedCol
    let b1 := setLineText s.buffer row newLine
    { s with buffer := b1,
             cursor := setPosition row (clampedCol + text.length - 1) b1 }
  else
    let firstLine := original.take clampedCol ++ lines.headD []
    let lastLine := lines.getLastD [] ++ original.drop clampedCol
    let b1 := setLineText s.buffer row firstLine
    let b2 := insertLinesAfterSeq b1 row ((lines.drop 1).dropLast)
    let b3 := insertLineAfter b2 (row + lines.length - 2) lastLine
    { s with buffer := b3,
             cursor := setPosition (row + lines.length - 1) ((lines.getLastD []).length - 1) b3 }

def pasteFromRegister (s : EditorState) (reg : List Char) (before : Bool) :
    EditorState :=
  if reg = [] then s
  else
    let row := s.cursor.row
    let col := s.cursor.col
    let isLineWise := reg.getLast? = some '\n'
    if isLineWise then
      let lines := reg.dropLast.splitOn '\n'
      let insertRow := if before then row else row + 1
      let lc := lineCount s.buffer
      if insertRow ≥ lc then
        let b1 := insertLinesAfterSeq s.buffer (lc - 1) lines
        { s with buffer := b1, cursor := setPosition (lc - 1 + lines.length) 0 b1 }
      else
        let b1 := insertLinesBeforeSeq s.buffer insertRow lines
        { s with buffer := b1,
                 cursor := setPosition (insertRow + lines.length - 1) 0 b1 }
    else
      let insertPos := if before then col else col + 1
      insertTextAtPosition s row insertPos reg

/- Commands.  The source's command closures become first-order data
   (operands plus, for motion commands, the captured motion definition),
   interpreted by a single executor. -/

inductive PendingOp where
  | delete
  | yank
deriving DecidableEq, Repr

inductive Cmd where
  | motionMove (motionKey : String) (count : Nat)
  | deleteWithMotion (motionKey : String) (count : Nat)
  | yankWithMotion (motionKey : String) (count : Nat)
  | deleteLines (count : Nat)
  | yankLines (count : Nat)
  | undoCount (count : Nat)
  | redoCount (count : Nat)
  | normalKey (k : String)
  | visualExit
  | visualYank
  | visualDelete
  | insertKeymapKey (k : String)
  | insertText (k : String)
deriving DecidableEq, Repr

structure ResolvedCmd where
  cmd : Cmd
  isUndo : Bool := false
  isRedo : Bool := false
deriving DecidableEq, Repr

structure NormalResolverState where
  countBuffer : List Char
  pendingOperator : Option PendingOp
deriving DecidableEq, Repr

structure VisualResolverState where
  countBuffer : List Char
deriving DecidableEq, Repr

structure ControllerState where
  state : EditorState
  register : List Char
  undoMgr : UndoManagerState
  normal : NormalResolverState
  visual : VisualResolverState

/- The literal normal-mode commands (normal-keymap.ts, plus the p/P
   bindings added by default-key-mapper.ts). -/

def normalCommandKeys : List String :=
  ["i", "a", "A", "o", "O", "x", "D", "v", "V", "p", "P"]

def execNormalKey (c : ControllerState) (k : String) : ControllerState :=
  let s := c.state
  if k = "i" then { c with state := { s with mode := .insert } }
  else if k = "a" then
    { c with state := { s with cursor := moveRight s.cursor s.buffer, mode := .insert } }
  else if k = "A" then
    { c with state := { s with cursor := moveToLineEnd s.cursor s.buffer, mode := .insert } }
  else if k = "o" then
    let row := s.cursor.row
    let b1 := insertLineAfter s.buffer row []
    { c with state := { s with buffer := b1, cursor := setPosition (row + 1) 0 b1, mode := .insert } }
  else if k = "O" then
    let row := s.cursor.row
    let b1 := insertLineBefore s.buffer row []
    { c with state := { s with buffer := b1, cursor := setPosition row 0 b1, mode := .insert } }
  else if k = "x" then
    let row := s.cursor.row
    let col := s.cursor.col
    let text := getLineText s.buffer row
    let lc := lineCount s.buffer
    if col < text.length then
      { c with state := { s with buffer := setLineText s.buffer row (text.take col ++ text.drop (col + 1)) } }
    else if col = text.length ∧ row < lc - 1 then
      let nextText := getLineText s.buffer (row + 1)
      let b1 := setLineText s.buffer row (text ++ nextText)
      { c with state := { s with buffer := removeLine b1 (row + 1) } }
    else c
  else if k = "D" then
    let row := s.cursor.row
    let text := getLineText s.buffer row
    { c with state := { s with buffer := setLineText s.buffer row (text.take s.cursor.col) } }
  else if k = "v" then
    { c with state := { s with selection := some ⟨.character, s.cursor⟩, mode := .visualCharacter } }
  else if k = "V" then
    { c with state := { s with selection := some ⟨.line, s.cursor⟩, mode := .visualLine } }
  else if k = "p" then
    let s1 := pasteFromRegister s c.register false
    { c with state := { s1 with mode := .normal } }
  else if k = "P" then
    let s1 := pasteFromRegister s c.register true
    { c with state := { s1 with mode := .normal } }
  else c

/- The insert keymap (insert-keymap.ts). -/

def insertKeymapKeys : List String := ["Escape", "Backspace", "Delete", "Enter", "Tab"]

def execInsertKeymapKey (s : EditorState) (k : String) : EditorState :=
  if k = "Escape" then
    { s with cursor := clampToBuffer s.cursor s.buffer, selection := none, mode := .normal }
  else if k = "Backspace" then
    let row := s.cursor.row
    let col := s.cursor.col
    let lineText := getLineText s.buffer row
    if col > 0 then
      let b1 := setLineText s.buffer row (lineText.take (col - 1) ++ lineText.drop col)
      { s with buffer := b1, cursor := setPosition row (col - 1) b1 }
    else if col = 0 ∧ row > 0 then
      let prevLineText := getLineText s.buffer (row - 1)
      let b1 := setLineText s.buffer (row - 1) (prevLineText ++ lineText)
      let b2 := removeLine b1 row
      { s with buffer := b2, cursor := setPosition (row - 1) prevLineText.length b2 }
    else s
  else if k = "Delete" then
    let row := s.cursor.row
    let text := getLineText s.buffer row
    { s with buffer := setLineText s.buffer row (text.take s.cursor.col ++ text.drop (s.cursor.col + 1)) }
  else if k = "Enter" then
    let row := s.cursor.row
    let text := getLineText s.buffer row
    let b1 := setLineText s.buffer row (text.take s.cursor.col)
    let b2 := insertLineAfter b1 row (text.drop s.cursor.col)
    { s with buffer := b2, cursor := setPosition (row + 1) 0 b2 }
  else if k = "Tab" then
    let row := s.cursor.row
    let col := s.cursor.col
    let text := getLineText s.buffer row
    let b1 := setLineText s.buffer row (text.take col ++ (' ' :: ' ' :: ' ' :: ' ' :: []) ++ text.drop col)
    { s with buffer := b1, cursor := setPosition row (col + 4) b1 }
  else s

def execInsertText (s : EditorState) (k : String) : EditorState :=
  let row := s.cursor.row
  let col := s.cursor.col
  let text := getLineText s.buffer row
  let b1 := setLineText s.buffer row (text.take col ++ k.data ++ text.drop col)
  { s with buffer := b1, cursor := setPosition row (col + 1) b1 }

/- The single command executor. -/

def execCmd (c : ControllerState) : Cmd → ControllerState
  | .motionMove motionKey count =>
    match motions motionKey with
    | some m => { c with state := m.move c.state (max 1 count) }
    | none => c
  | .deleteWithMotion motionKey count =>
    match motions motionKey with
    | none => c
    | some m =>
      match m.toRange c.state (max 1 count) with
      | .line startRow endRow =>
        let r := deleteLineRange c.state startRow endRow
        { c with state := r.1, register := r.2 }
      | .character row startCol endCol =>
        let r := deleteCharacterRange c.state c.register row startCol endCol
        { c with state := r.1, register := r.2 }
  | .yankWithMotion motionKey count =>
    match motions motionKey with
    | none => c
    | some m =>
      match m.toRange c.state (max 1 count) with
      | .line startRow endRow =>
        { c with register := yankLineRange c.state startRow endRow }
      | .character row startCol endCol =>
        { c with register := yankCharacterRange c.state c.register row startCol endCol }
  | .deleteLines count =>
    let row := c.state.cursor.row
    let endRow := clampNumber (row + max 1 count - 1) 0 (lineCount c.state.buffer - 1)
    let r := deleteLineRange c.state row endRow
    { c with state := r.1, register := r.2 }
  | .yankLines count =>
    let row := c.state.cursor.row
    let endRow := clampNumber (row + max 1 count - 1) 0 (lineCount c.state.buffer - 1)
    { c with register := yankLineRange c.state row endRow }
  | .undoCount count =>
    let r := undoTimes (max 1 count) c.undoMgr c.state
    { c with undoMgr := r.1, state := { r.2 with mode := .normal } }
  | .redoCount count =>
    let r := redoTimes (max 1 count) c.undoMgr c.state
    { c with undoMgr := r.1, state := { r.2 with mode := .normal } }
  | .normalKey k => execNormalKey c k
  | .visualExit => { c with state := { c.state with selection := none, mode := .normal } }
  | .visualYank =>
    { c with register := copySelectionToRegister c.state c.register,
             state := { c.state with selection := none, mode := .normal } }
  | .visualDelete =>
    match getSelectionRange c.state with
    | some range =>
      let reg1 := copySelectionToRegister c.state c.register
      let s1 := deleteSelectionInBuffer c.state range
      { c with register := reg1, state := { s1 with selection := none, mode := .normal } }
    | none => { c with state := { c.state with selection := none, mode := .normal } }
  | .insertKeymapKey k => { c with state := execInsertKeymapKey c.state k }
  | .insertText k => { c with state := execInsertText c.state k }

/- NormalModeCommandResolver.resolve. -/

def shouldTreatZeroAsMotion (countBuffer : List Char) (k : String) : Bool :=
  if k ≠ "0" then false else countBuffer = []

def resolveMotionKeyNormal (rs : NormalResolverState) (key : String) :
    Option (NormalResolverState × ResolvedCmd) :=
  match motions key with
  | none => none
  | some _ =>
    let count := consumeCount rs.countBuffer
    let cmd :=
      match rs.pendingOperator with
      | some .delete => Cmd.deleteWithMotion key count
      | some .yank => Cmd.yankWithMotion key count
      | none => Cmd.motionMove key count
    some (⟨[], none⟩, ⟨cmd, false, false⟩)

def normalResolve (rs : NormalResolverState) (ev : KeyEvent) :
    NormalResolverState × Option ResolvedCmd :=
  if isPureModifier ev.key then (rs, none)
  else if isDigitKey ev.key then
    if shouldTreatZeroAsMotion rs.countBuffer ev.key then
      match resolveMotionKeyNormal rs "0" with
      | some (rs1, r) => (rs1, some r)
      | none => (rs, none)
    else ({ rs with countBuffer := rs.countBuffer ++ ev.key.data }, none)
  else
    let key := makeKey ev
    if key = "d" then
      if rs.pendingOperator = some PendingOp.delete then
        (⟨[], none⟩, some ⟨Cmd.deleteLines (consumeCount rs.countBuffer), false, false⟩)
      else ({ rs with pendingOperator := some .delete }, none)
    else if key = "y" then
      if rs.pendingOperator = some PendingOp.yank then
        (⟨[], none⟩, some ⟨Cmd.yankLines (consumeCount rs.countBuffer), false, false⟩)
      else ({ rs with pendingOperator := some .yank }, none)
    else if key = "u" then
      (⟨[], none⟩, some ⟨Cmd.undoCount (consumeCount rs.countBuffer), true, false⟩)
    else if key = "Ctrl+r" then
      (⟨[], none⟩, some ⟨Cmd.redoCount (consumeCount rs.countBuffer), false, true⟩)
    else
      match resolveMotionKeyNormal rs key with
      | some (rs1, r) => (rs1, some r)
      | none =>
        if key ∈ normalCommandKeys then (⟨[], none⟩, some ⟨Cmd.normalKey key, false, false⟩)
        else (⟨[], none⟩, none)

/- VisualModeCommandResolver.resolve. -/

def resolveMotionKeyVisual (vs : VisualResolverState) (key : String) :
    Option (VisualResolverState × ResolvedCmd) :=
  match motions key with
  | none => none
  | some _ =>
    some (⟨[]⟩, ⟨Cmd.motionMove key (consumeCount vs.countBuffer), false, false⟩)

def visualResolve (vs : VisualResolverState) (ev : KeyEvent) :
    VisualResolverState × Option ResolvedCmd :=
  if isPureModifier ev.key then (vs, none)
  else if isDigitKey ev.key then
    if shouldTreatZeroAsMotion vs.countBuffer ev.key then
      match resolveMotionKeyVisual vs "0" with
      | some (vs1, r) => (vs1, some r)
      | none => (vs, none)
    else ({ vs with countBuffer := vs.countBuffer ++ ev.key.data }, none)
  else
    let key := makeKey ev
    if key = "Escape" then (⟨[]⟩, some ⟨Cmd.visualExit, false, false⟩)
    else if key = "y" then (⟨[]⟩, some ⟨Cmd.visualYank, false, false⟩)
    else if key = "d" then (⟨[]⟩, some ⟨Cmd.visualDelete, false, false⟩)
    else
      match resolveMotionKeyVisual vs key with
      | some (vs1, r) => (vs1, some r)
      | none => (⟨[]⟩, none)

/- KeyMapper.resolve routed by the current mode. -/

def keyMapperResolve (c : ControllerState) (ev : KeyEvent) :
    ControllerState × Option ResolvedCmd :=
  match c.state.mode with
  | .normal =>
    let r := normalResolve c.normal ev
    ({ c with normal := r.1 }, r.2)
  | .visualCharacter =>
    let r := visualResolve c.visual ev
    ({ c with visual := r.1 }, r.2)
  | .visualLine =>
    let r := visualResolve c.visual ev
    ({ c with visual := r.1 }, r.2)
  | .insert =>
    let key := makeKey ev
    if key ∈ insertKeymapKeys then (c, some ⟨Cmd.insertKeymapKey key, false, false⟩)
    else if ev.key.data.length = 1 then (c, some ⟨Cmd.insertText ev.key, false, false⟩)
    else (c, none)

/- ViModeController.processKeyboardEvent. -/

def shouldStartInsertSession (c : ControllerState) (ev : KeyEvent) : Bool :=
  c.state.mode = .normal ∧ ev.key ∈ (["i", "a", "A", "o", "O"] : List String)

/-- CommandExecutor.run: optional snapshot/record wrapping around the command. -/
def runCommand (c : ControllerState) (cmd : Cmd) (recordUndo : Bool) : ControllerState :=
  if recordUndo then
    let snap := createSnapshot c.state
    let cr := execCmd c cmd
    { cr with undoMgr := recordChange cr.undoMgr snap cr.state }
  else execCmd c cmd

/-- The body of processKeyboardEvent once a command has been resolved. -/
def dispatchResolved (c1 : ControllerState) (ev : KeyEvent) :
    Option ResolvedCmd → ControllerState
  | none => c1
  | some r =>
    let wasInsertMode := c1.state.mode = Mode.insert
    let ca :=
      if shouldStartInsertSession c1 ev then
        { c1 with undoMgr := beginCompound c1.undoMgr c1.state }
      else c1
    let recordUndo := !r.isUndo && !r.isRedo && !hasPendingCompound ca.undoMgr
    let cb := runCommand ca r.cmd recordUndo
    if wasInsertMode ∧ cb.state.mode = Mode.normal then
      { cb with undoMgr := commitCompoundIfChanged cb.undoMgr cb.state }
    else cb

/-- The trailing `state.cursor.clampToBuffer(state.buffer)` of every event. -/
def clampCursorState (c : ControllerState) : ControllerState :=
  { c with state := { c.state with cursor := clampToBuffer c.state.cursor c.state.buffer } }

def processKeyboardEvent (c : ControllerState) (ev : KeyEvent) : ControllerState :=
  let rp := keyMapperResolve c ev
  clampCursorState (dispatchResolved rp.1 ev rp.2)

def processEvents (c : ControllerState) (evs : List KeyEvent) : ControllerState :=
  evs.foldl processKeyboardEvent c

/-- A freshly constructed controller (ViModeController constructor with the
default key mapper): clamped initial cursor, empty register, fresh undo
manager and resolver states. -/
def initController (content : List Char) (row col : Nat) (mode : Mode) :
    ControllerState :=
  let b := replaceContent content
  { state := { mode := mode, cursor := clampToBuffer ⟨row, col⟩ b,
               buffer := b, selection := none },
    register := [],
    undoMgr := ⟨[], [], none⟩,
    normal := ⟨[], none⟩,
    visual := ⟨[]⟩ }

/-! Basic lemmas about the embedding. -/

theorem clampToBuffer_eq_self (p : CursorPosition) (b : Buffer)
    (hrow : p.row < b.length) (hcol : p.col ≤ getLineLength b p.row) :
    clampToBuffer p b = p := by
  obtain ⟨r, cl⟩ := p
  simp only [clampToBuffer, lineCount] at *
  have h1 : min (max r 0) (b.length - 1) = r := by omega
  rw [h1]
  have h2 : min (max cl 0) (getLineLength b r) = cl := by omega
  rw [h2]

theorem clampToBuffer_row_lt (p : CursorPosition) (b : Buffer) (hb : b ≠ []) :
    (clampToBuffer p b).row < b.length := by
  have : 1 ≤ b.length := List.length_pos.mpr hb
  simp only [clampToBuffer, lineCount]
  omega

theorem clampToBuffer_col_le (p : CursorPosition) (b : Buffer) :
    (clampToBuffer p b).col ≤ getLineLength b (clampToBuffer p b).row := by
  simp only [clampToBuffer, lineCount]
  omega

theorem clampCursorState_eq_self (c : ControllerState)
    (hrow : c.state.cursor.row < c.state.buffer.length)
    (hcol : c.state.cursor.col ≤ getLineLength c.state.buffer c.state.cursor.row) :
    clampCursorState c = c := by
  simp [clampCursorState, clampToBuffer_eq_self _ _ hrow hcol]

theorem singleton_ne_of_data_length (ch : Char) (s : String)
    (hs : s.data.length ≠ 1) : String.singleton ch ≠ s := by
  intro h
  apply hs
  rw [← h]
  rfl

theorem singleton_eq_iff (ch c0 : Char) :
    (String.singleton ch = String.singleton c0) ↔ ch = c0 := by
  constructor
  · intro h
    have hd := congrArg String.data h
    simpa using hd
  · intro h
    rw [h]

theorem isPureModifier_singleton (ch : Char) :
    isPureModifier (String.singleton ch) = false := by
  simp only [isPureModifier]
  have h1 := singleton_ne_of_data_length ch "Shift" (by decide)
  have h2 := singleton_ne_of_data_length ch "Control" (by decide)
  have h3 := singleton_ne_of_data_length ch "Alt" (by decide)
  have h4 := singleton_ne_of_data_length ch "Meta" (by decide)
  simp [h1, h2, h3, h4]

theorem isDigitKey_singleton (ch : Char) :
    isDigitKey (String.singleton ch) = (decide ('0' ≤ ch) && decide (ch ≤ '9')) := by
  simp [isDigitKey, String.singleton]


theorem removeLinesAt_eq (n : Nat) (b : Buffer) (row : Nat) (h : row + n ≤ b.length) :
    removeLinesAt b row n = b.take row ++ b.drop (row + n) := by
  induction n generalizing b with
  | zero => simp [removeLinesAt]
  | succ n ih =>
    have hrow : row < b.length := by omega
    have herase : b.eraseIdx row = b.take row ++ b.drop (row + 1) := by
      rw [List.eraseIdx_eq_take_drop_succ]
    have hlen : (b.eraseIdx row).length = b.length - 1 := by
      rw [herase]
      simp
      omega
    have htake : (b.eraseIdx row).take row = b.take row := by
      rw [herase, List.take_append_eq_append_take]
      have h1 : (b.take row).take row = b.take row := by simp
      have h2 : row - (b.take row).length = 0 := by
        simp only [List.length_take]
        omega
      rw [h1, h2]
      simp
    have hdrop : (b.eraseIdx row).drop (row + n) = b.drop (row + n + 1) := by
      rw [herase, List.drop_append_eq_append_drop]
      have h1 : (b.take row).drop (row + n) = [] := by
        apply List.drop_eq_nil_of_le
        simp only [List.length_take]
        omega
      have h2 : (b.take row).length = row := by
        simp only [List.length_take]
        omega
      rw [h1, h2, List.drop_drop]
      have h3 : row + 1 + (row + n - row) = row + n + 1 := by omega
      rw [h3]
      simp
    show removeLinesAt (removeLine b row) row n = _
    rw [removeLine, ih (b.eraseIdx row) (by omega)]
    rw [htake, hdrop]
    have h4 : row + (n + 1) = row + n + 1 := by omega
    rw [h4]

theorem range_map_getLineText (b : Buffer) (k lo : Nat) (h : lo + k ≤ b.length) :
    (List.range' lo k).map (getLineText b) = (b.drop lo).take k := by
  induction k generalizing lo with
  | zero => simp
  | succ k ih =>
    have hlo : lo < b.length := by omega
    rw [List.range'_succ, List.map_cons]
    rw [List.drop_eq_getElem_cons hlo]
    rw [List.take_succ_cons]
    have h1 : getLineText b lo = b.get ⟨lo, hlo⟩ := by
      simp [getLineText, List.getD_eq_getElem, hlo]
    rw [h1]
    have h2 : (List.range' (lo + 1) k).map (getLineText b) = (b.drop (lo + 1)).take k :=
      ih (lo + 1) (by omega)
    rw [h2]
    simp

theorem setPosition_eq (row col : Nat) (b : Buffer) (hr : row < b.length)
    (hc : col ≤ getLineLength b row) : setPosition row col b = ⟨row, col⟩ :=
  clampToBuffer_eq_self ⟨row, col⟩ b hr hc

theorem collectLines_eq (b : Buffer) (lo hi : Nat) (h : hi < b.length ∨ hi + 1 ≤ lo) :
    collectLines b lo hi = (b.drop lo).take (hi + 1 - lo) := by
  rcases le_or_lt lo hi with hle | hgt
  · have hhi : hi < b.length := by omega
    unfold collectLines
    apply range_map_getLineText
    omega
  · have hk : hi + 1 - lo = 0 := by omega
    unfold collectLines
    rw [hk]
    simp

theorem replaceContent_nil : replaceContent [] = [([] : Line)] := by
  simp [replaceContent]

theorem deleteLineRange_register (s : EditorState) (r1 r2 : Nat)
    (hb : s.buffer ≠ []) :
    (deleteLineRange s r1 r2).2 =
      List.intercalate [Char.ofNat 10]
        ((s.buffer.drop (min r1 r2)).take (min (max r1 r2) (s.buffer.length - 1) + 1 - min r1 r2))
      ++ [Char.ofNat 10] := by
  have hlen : 1 ≤ s.buffer.length := List.length_pos.mpr hb
  simp only [deleteLineRange, clampNumber, lineCount]
  have e1 : max 0 (min r1 r2) = min r1 r2 := by omega
  have e2 : min (max (max r1 r2) (min r1 r2)) (s.buffer.length - 1)
      = min (max r1 r2) (s.buffer.length - 1) := by omega
  rw [e1, e2]
  rw [collectLines_eq _ _ _ (Or.inl (by omega))]

theorem deleteLineRange_buffer (s : EditorState) (r1 r2 : Nat)
    (hb : s.buffer ≠ []) :
    (deleteLineRange s r1 r2).1.buffer =
      (if s.buffer.take (min r1 r2)
           ++ s.buffer.drop (min (max r1 r2) (s.buffer.length - 1) + 1) = [] then [([] : Line)]
       else s.buffer.take (min r1 r2)
           ++ s.buffer.drop (min (max r1 r2) (s.buffer.length - 1) + 1)) := by
  have hlen : 1 ≤ s.buffer.length := List.length_pos.mpr hb
  simp only [deleteLineRange, clampNumber, lineCount]
  have e1 : max 0 (min r1 r2) = min r1 r2 := by omega
  have e2 : min (max (max r1 r2) (min r1 r2)) (s.buffer.length - 1)
      = min (max r1 r2) (s.buffer.length - 1) := by omega
  rw [e1, e2]
  have hrem : removeLinesAt s.buffer (min r1 r2)
      (min (max r1 r2) (s.buffer.length - 1) + 1 - min r1 r2) =
      s.buffer.take (min r1 r2)
        ++ s.buffer.drop (min (max r1 r2) (s.buffer.length - 1) + 1) := by
    by_cases hcase : min r1 r2 ≤ min (max r1 r2) (s.buffer.length - 1)
    · rw [removeLinesAt_eq _ _ _ (by omega)]
      have e3 : min r1 r2 + (min (max r1 r2) (s.buffer.length - 1) + 1 - min r1 r2)
          = min (max r1 r2) (s.buffer.length - 1) + 1 := by omega
      rw [e3]
    · have hk : min (max r1 r2) (s.buffer.length - 1) + 1 - min r1 r2 = 0 := by omega
      have hge : s.buffer.length ≤ min r1 r2 := by omega
      rw [hk]
      show s.buffer = _
      rw [List.take_of_length_le hge, List.drop_eq_nil_of_le (by omega)]
      simp
  rw [hrem]
  rw [replaceContent_nil]
  simp only [List.length_eq_zero]

theorem removeLinesAt_clamped (b : Buffer) (r1 r2 : Nat) (hlen : 1 ≤ b.length) :
    removeLinesAt b (min r1 r2) (min (max r1 r2) (b.length - 1) + 1 - min r1 r2)
      = b.take (min r1 r2) ++ b.drop (min (max r1 r2) (b.length - 1) + 1) := by
  by_cases hcase : min r1 r2 ≤ min (max r1 r2) (b.length - 1)
  · rw [removeLinesAt_eq _ _ _ (by omega)]
    have e3 : min r1 r2 + (min (max r1 r2) (b.length - 1) + 1 - min r1 r2)
        = min (max r1 r2) (b.length - 1) + 1 := by omega
    rw [e3]
  · have hk : min (max r1 r2) (b.length - 1) + 1 - min r1 r2 = 0 := by omega
    have hge : b.length ≤ min r1 r2 := by omega
    rw [hk]
    show b = _
    rw [List.take_of_length_le hge, List.drop_eq_nil_of_le (by omega)]
    simp

theorem deleteLineRange_eq (s : EditorState) (r1 r2 : Nat) (hb : s.buffer ≠ []) :
    deleteLineRange s r1 r2 =
      (let ns := min r1 r2
       let ne := min (max r1 r2) (s.buffer.length - 1)
       let rem := s.buffer.take ns ++ s.buffer.drop (ne + 1)
       let b2 := if rem = [] then [([] : Line)] else rem
       let tr := min ns (b2.length - 1)
       ({ s with buffer := b2,
                 cursor := ⟨tr, min s.cursor.col (getLineLength b2 tr)⟩ },
        List.intercalate [Char.ofNat 10] ((s.buffer.drop ns).take (ne + 1 - ns))
          ++ [Char.ofNat 10])) := by
  have hlen : 1 ≤ s.buffer.length := List.length_pos.mpr hb
  simp only [deleteLineRange, clampNumber, lineCount]
  have e1 : max 0 (min r1 r2) = min r1 r2 := by omega
  have e2 : min (max (max r1 r2) (min r1 r2)) (s.buffer.length - 1)
      = min (max r1 r2) (s.buffer.length - 1) := by omega
  rw [e1, e2]
  rw [collectLines_eq _ _ _ (Or.inl (by omega))]
  rw [removeLinesAt_clamped _ _ _ hlen]
  rw [replaceContent_nil]
  simp only [List.length_eq_zero]
  set rem := s.buffer.take (min r1 r2)
      ++ s.buffer.drop (min (max r1 r2) (s.buffer.length - 1) + 1) with hrm
  have e4 : max (min r1 r2) 0 = min r1 r2 := by omega
  by_cases hrn : rem = []
  · simp only [hrn, if_pos rfl, if_true]
    rw [e4]
    have hsp : setPosition (min (min r1 r2) (List.length [([] : Line)] - 1))
        (min s.cursor.col (getLineLength [([] : Line)]
          (min (min r1 r2) (List.length [([] : Line)] - 1)))) [([] : Line)]
        = ⟨min (min r1 r2) (List.length [([] : Line)] - 1),
           min s.cursor.col (getLineLength [([] : Line)]
             (min (min r1 r2) (List.length [([] : Line)] - 1)))⟩ := by
      apply setPosition_eq
      · simp
      · exact Nat.min_le_right _ _
    rw [hsp]
  · simp only [if_neg hrn]
    have hlen2 : 1 ≤ rem.length := List.length_pos.mpr hrn
    rw [e4]
    have hsp : setPosition (min (min r1 r2) (rem.length - 1))
        (min s.cursor.col (getLineLength rem (min (min r1 r2) (rem.length - 1)))) rem
        = ⟨min (min r1 r2) (rem.length - 1),
           min s.cursor.col (getLineLength rem (min (min r1 r2) (rem.length - 1)))⟩ := by
      apply setPosition_eq
      · omega
      · exact Nat.min_le_right _ _
    rw [hsp]

/-! Claim theorems. -/

/-- Claim C2: for every editor state, the dollar motion's range function returns
the character range with startCol = min(col, lineLength-1) (0 on an empty line)
and endCol = lineLength, extending to the true end of the line; its move
function lands the cursor at lineLength-1 (or 0 on an empty line); and on a
non-empty line with the cursor not past the last character the range's end is
one column past the move's landing column. -/
theorem c2_dollar_range_extends_past_move (s : EditorState) (n : Nat)
    (hrow : s.cursor.row < s.buffer.length) :
    (dollarMotion.toRange s n =
      MotionRange.character s.cursor.row
        (if getLineLength s.buffer s.cursor.row = 0 then 0
         else min s.cursor.col (getLineLength s.buffer s.cursor.row - 1))
        (getLineLength s.buffer s.cursor.row))
    ∧ ((dollarMotion.move s n).cursor =
        ⟨s.cursor.row,
         if getLineLength s.buffer s.cursor.row = 0 then 0
         else getLineLength s.buffer s.cursor.row - 1⟩)
    ∧ (getLineLength s.buffer s.cursor.row ≠ 0 →
       s.cursor.col ≤ getLineLength s.buffer s.cursor.row - 1 →
       getLineLength s.buffer s.cursor.row = (dollarMotion.move s n).cursor.col + 1) := by
  have hmove : (dollarMotion.move s n).cursor =
      ⟨s.cursor.row,
       if getLineLength s.buffer s.cursor.row = 0 then 0
       else getLineLength s.buffer s.cursor.row - 1⟩ := by
    simp only [dollarMotion]
    by_cases h0 : getLineLength s.buffer s.cursor.row = 0
    · rw [if_pos h0]
      exact setPosition_eq _ _ _ hrow (Nat.zero_le _)
    · rw [if_neg h0]
      exact setPosition_eq _ _ _ hrow (by omega)
  refine ⟨?_, hmove, ?_⟩
  · simp only [dollarMotion]
    by_cases h0 : getLineLength s.buffer s.cursor.row = 0
    · rw [if_pos h0, if_pos h0]
    · rw [if_neg h0, if_neg h0]
      have e : max 0 (getLineLength s.buffer s.cursor.row - 1)
          = getLineLength s.buffer s.cursor.row - 1 := by omega
      rw [e]
  · intro h0 _hcol
    simp only [hmove, if_neg h0]
    omega

/-- Claim C3: in the normal-mode resolver a "0" key with an empty count buffer
resolves as the line-start motion (whose move sets the cursor column to 0 and
whose range, used when an operator is pending, is the character range
[0, col) on the cursor row), while a "0" with a non-empty count buffer is
appended to the count buffer and resolves no command. -/
theorem c3_zero_vs_count_disambiguation (rs : NormalResolverState)
    (s : EditorState) (n : Nat) (hrow : s.cursor.row < s.buffer.length) :
    (rs.countBuffer = [] →
      normalResolve rs (keyEv "0") =
        (⟨[], none⟩,
         some ⟨(match rs.pendingOperator with
                | some PendingOp.delete => Cmd.deleteWithMotion "0" 1
                | some PendingOp.yank => Cmd.yankWithMotion "0" 1
                | none => Cmd.motionMove "0" 1), false, false⟩))
    ∧ ((zeroMotion.move s n).cursor = ⟨s.cursor.row, 0⟩)
    ∧ (zeroMotion.toRange s n = MotionRange.character s.cursor.row 0 s.cursor.col)
    ∧ (rs.countBuffer ≠ [] →
      normalResolve rs (keyEv "0") =
        ({ rs with countBuffer := rs.countBuffer ++ (Char.ofNat 48 :: []) }, none)) := by
  obtain ⟨cb, po⟩ := rs
  refine ⟨?_, ?_, ?_, ?_⟩
  · intro h
    simp only at h
    subst h
    cases po with
    | none => rfl
    | some op => cases op <;> rfl
  · simp only [zeroMotion]
    exact setPosition_eq _ _ _ hrow (Nat.zero_le _)
  · rfl
  · intro h
    simp only at h
    simp only [normalResolve, keyEv]
    rw [if_neg (by decide), if_pos (by decide)]
    have hz : shouldTreatZeroAsMotion cb "0" = false := by
      simp [shouldTreatZeroAsMotion, h]
    rw [hz]
    simp

/-- Claim C6: undo on an empty undo stack returns false and changes nothing;
otherwise it pushes a snapshot of the current state on the redo stack, replaces
the buffer content wholesale from the popped snapshot, restores its mode and
selection, clamps the cursor against the restored content, and returns true;
redo is symmetric over the redo stack. -/
theorem c6_undo_redo_stack_semantics (u : UndoManagerState) (s : EditorState) :
    (u.undoStack = [] → undo u s = (false, u, s))
    ∧ (∀ snap rest, u.undoStack = snap :: rest →
        undo u s =
          (true,
           { u with undoStack := rest, redoStack := createSnapshot s :: u.redoStack },
           { mode := snap.mode, selection := snap.selection,
             buffer := replaceContent snap.content,
             cursor := clampToBuffer snap.cursor (replaceContent snap.content) }))
    ∧ (u.redoStack = [] → redo u s = (false, u, s))
    ∧ (∀ snap rest, u.redoStack = snap :: rest →
        redo u s =
          (true,
           { u with redoStack := rest, undoStack := createSnapshot s :: u.undoStack },
           { mode := snap.mode, selection := snap.selection,
             buffer := replaceContent snap.content,
             cursor := clampToBuffer snap.cursor (replaceContent snap.content) })) := by
  obtain ⟨us, rs, ps⟩ := u
  refine ⟨?_, ?_, ?_, ?_⟩
  · intro h
    simp only at h
    subst h
    rfl
  · intro snap rest h
    simp only at h
    subst h
    rfl
  · intro h
    simp only at h
    subst h
    rfl
  · intro snap rest h
    simp only at h
    subst h
    rfl


theorem length_refill_pos (b1 : Buffer) :
    1 ≤ (if lineCount b1 = 0 then replaceContent [] else b1).length := by
  by_cases hz : lineCount b1 = 0
  · rw [if_pos hz, replaceContent_nil]
    simp
  · rw [if_neg hz]
    simp only [lineCount] at hz
    omega

/-- Claim C4: every delete operation (line-range delete including dd,
delete over a character motion range, visual-mode delete of a line
selection) leaves at least one line in the buffer, and dd on a one-line
buffer leaves exactly one empty line. -/
theorem c4_delete_keeps_line_count_positive (s : EditorState) (reg : List Char)
    (r1 r2 row sc ec cnt sr er : Nat) (c : ControllerState)
    (hb : s.buffer ≠ []) (hone : c.state.buffer.length = 1) :
    1 ≤ (deleteLineRange s r1 r2).1.buffer.length
    ∧ 1 ≤ (deleteCharacterRange s reg row sc ec).1.buffer.length
    ∧ 1 ≤ (deleteSelectionInBuffer s (NormalizedSelectionRange.line sr er)).buffer.length
    ∧ (execCmd c (Cmd.deleteLines cnt)).state.buffer = [([] : Line)] := by
  refine ⟨?_, ?_, ?_, ?_⟩
  · simp only [deleteLineRange]
    exact length_refill_pos _
  · simp only [deleteCharacterRange]
    split
    · exact List.length_pos.mpr hb
    · simp only [setLineText, List.length_set]
      exact List.length_pos.mpr hb
  · simp only [deleteSelectionInBuffer]
    exact length_refill_pos _
  · obtain ⟨st, reg0, um, nr, vr⟩ := c
    obtain ⟨m, cur, buf, sel⟩ := st
    simp only at hone
    obtain ⟨l, hbuf⟩ : ∃ l, buf = [l] := by
      cases buf with
      | nil => simp at hone
      | cons a t =>
        cases t with
        | nil => exact ⟨a, rfl⟩
        | cons b2 t2 => simp at hone
    subst hbuf
    simp only [execCmd, clampNumber, lineCount]
    rw [deleteLineRange_buffer _ _ _ (by simp)]
    simp

/-- Claim C5: a line-range delete or yank writes to the register the text of
the clamped row span joined by newlines with one trailing newline appended;
the register content is computed from the buffer as it was before any removal,
and delete then removes exactly that row span (refilling with one empty line
when everything was removed). -/
theorem c5_line_register_before_removal (s : EditorState) (r1 r2 : Nat)
    (hb : s.buffer ≠ []) :
    ((deleteLineRange s r1 r2).2 =
      extractContent ((s.buffer.drop (min r1 r2)).take
        (min (max r1 r2) (s.buffer.length - 1) + 1 - min r1 r2)) ++ ['\n'])
    ∧ (yankLineRange s r1 r2 =
      extractContent ((s.buffer.drop (min r1 r2)).take
        (min (max r1 r2) (s.buffer.length - 1) + 1 - min r1 r2)) ++ ['\n'])
    ∧ ((deleteLineRange s r1 r2).1.buffer =
      if s.buffer.take (min r1 r2)
          ++ s.buffer.drop (min (max r1 r2) (s.buffer.length - 1) + 1) = []
      then [([] : Line)]
      else s.buffer.take (min r1 r2)
          ++ s.buffer.drop (min (max r1 r2) (s.buffer.length - 1) + 1)) := by
  have hlen : 1 ≤ s.buffer.length := List.length_pos.mpr hb
  refine ⟨?_, ?_, deleteLineRange_buffer s r1 r2 hb⟩
  · exact deleteLineRange_register s r1 r2 hb
  · simp only [yankLineRange, clampNumber, lineCount]
    have e1 : max 0 (min r1 r2) = min r1 r2 := by omega
    have e2 : min (max (max r1 r2) (min r1 r2)) (s.buffer.length - 1)
        = min (max r1 r2) (s.buffer.length - 1) := by omega
    rw [e1, e2]
    rw [collectLines_eq _ _ _ (Or.inl (by omega))]
    rfl

/-- Witness for C2 on the buffer "abc" with cursor (0,1). -/
theorem c2_dollar_range_extends_past_move_witness :
    dollarMotion.toRange ⟨Mode.normal, ⟨0, 1⟩, [['a', 'b', 'c']], none⟩ 1
      = MotionRange.character 0 1 3
    ∧ (dollarMotion.move ⟨Mode.normal, ⟨0, 1⟩, [['a', 'b', 'c']], none⟩ 1).cursor = ⟨0, 2⟩ := by
  have h := c2_dollar_range_extends_past_move
    ⟨Mode.normal, ⟨0, 1⟩, [['a', 'b', 'c']], none⟩ 1 (by decide)
  exact ⟨h.1.trans (by decide), h.2.1.trans (by decide)⟩

/-- Witness for C3: "0" with empty count buffer and pending delete resolves the
line-start delete; "0" after the digit 4 extends the count buffer. -/
theorem c3_zero_vs_count_disambiguation_witness :
    normalResolve ⟨[], some PendingOp.delete⟩ (keyEv "0")
      = (⟨[], none⟩, some ⟨Cmd.deleteWithMotion "0" 1, false, false⟩)
    ∧ normalResolve ⟨['4'], none⟩ (keyEv "0") = (⟨['4', '0'], none⟩, none) := by
  have h1 := (c3_zero_vs_count_disambiguation ⟨[], some PendingOp.delete⟩
    ⟨Mode.normal, ⟨0, 0⟩, [['a']], none⟩ 1 (by decide)).1 rfl
  have h2 := (c3_zero_vs_count_disambiguation ⟨['4'], none⟩
    ⟨Mode.normal, ⟨0, 0⟩, [['a']], none⟩ 1 (by decide)).2.2.2 (by decide)
  exact ⟨h1.trans (by decide), h2.trans (by decide)⟩

/-- Witness for C4 at concrete inputs; dd on the one-line buffer "ab". -/
theorem c4_delete_keeps_line_count_positive_witness :
    1 ≤ (deleteLineRange ⟨Mode.normal, ⟨0, 0⟩, [['a'], ['b']], none⟩ 0 1).1.buffer.length
    ∧ (execCmd ⟨⟨Mode.normal, ⟨0, 0⟩, [['a', 'b']], none⟩, [], ⟨[], [], none⟩, ⟨[], none⟩, ⟨[]⟩⟩
        (Cmd.deleteLines 1)).state.buffer = [([] : Line)] := by
  have h := c4_delete_keeps_line_count_positive
    ⟨Mode.normal, ⟨0, 0⟩, [['a'], ['b']], none⟩ [] 0 1 0 0 0 1 0 0
    ⟨⟨Mode.normal, ⟨0, 0⟩, [['a', 'b']], none⟩, [], ⟨[], [], none⟩, ⟨[], none⟩, ⟨[]⟩⟩
    (by decide) (by decide)
  exact ⟨h.1, h.2.2.2⟩

/-- Witness for C5: yanking rows 0-1 of "ab"/"cd" records "ab\ncd\n" and the
delete removes exactly those rows. -/
theorem c5_line_register_before_removal_witness :
    (deleteLineRange ⟨Mode.normal, ⟨0, 0⟩, [['a', 'b'], ['c', 'd'], ['e']], none⟩ 0 1).2
      = ['a', 'b', '\n', 'c', 'd', '\n']
    ∧ yankLineRange ⟨Mode.normal, ⟨0, 0⟩, [['a', 'b'], ['c', 'd'], ['e']], none⟩ 0 1
      = ['a', 'b', '\n', 'c', 'd', '\n']
    ∧ (deleteLineRange ⟨Mode.normal, ⟨0, 0⟩, [['a', 'b'], ['c', 'd'], ['e']], none⟩ 0 1).1.buffer
      = [['e']] := by
  have h := c5_line_register_before_removal
    ⟨Mode.normal, ⟨0, 0⟩, [['a', 'b'], ['c', 'd'], ['e']], none⟩ 0 1 (by decide)
  exact ⟨h.1.trans (by decide), h.2.1.trans (by decide), h.2.2.trans (by decide)⟩

/-- Witness for C6: undo on an empty stack fails and changes nothing; undo with
a stacked snapshot restores its content, mode and clamped cursor. -/
theorem c6_undo_redo_stack_semantics_witness :
    undo ⟨[], [], none⟩ ⟨Mode.normal, ⟨0, 0⟩, [['a']], none⟩
      = (false, ⟨[], [], none⟩, ⟨Mode.normal, ⟨0, 0⟩, [['a']], none⟩)
    ∧ undo ⟨[⟨['b'], ⟨0, 5⟩, Mode.insert, none⟩], [], none⟩
        ⟨Mode.normal, ⟨0, 0⟩, [['a']], none⟩
      = (true, ⟨[], [⟨['a'], ⟨0, 0⟩, Mode.normal, none⟩], none⟩,
         ⟨Mode.insert, ⟨0, 1⟩, [['b']], none⟩) := by
  have h1 := (c6_undo_redo_stack_semantics ⟨[], [], none⟩
    ⟨Mode.normal, ⟨0, 0⟩, [['a']], none⟩).1 rfl
  have h2 := (c6_undo_redo_stack_semantics ⟨[⟨['b'], ⟨0, 5⟩, Mode.insert, none⟩], [], none⟩
    ⟨Mode.normal, ⟨0, 0⟩, [['a']], none⟩).2.1 ⟨['b'], ⟨0, 5⟩, Mode.insert, none⟩ [] rfl
  exact ⟨h1, h2.trans (by decide)⟩

theorem runCommand_state (c : ControllerState) (cmd : Cmd) (ru : Bool) :
    (runCommand c cmd ru).state = (execCmd c cmd).state := by
  unfold runCommand
  split <;> rfl

theorem runCommand_register (c : ControllerState) (cmd : Cmd) (ru : Bool) :
    (runCommand c cmd ru).register = (execCmd c cmd).register := by
  unfold runCommand
  split <;> rfl

theorem dispatchResolved_some_state (c1 : ControllerState) (ev : KeyEvent)
    (r : ResolvedCmd) :
    (dispatchResolved c1 ev (some r)).state =
      (execCmd (if shouldStartInsertSession c1 ev
        then { c1 with undoMgr := beginCompound c1.undoMgr c1.state }
        else c1) r.cmd).state := by
  simp only [dispatchResolved]
  split <;> split <;> simp [runCommand_state]

theorem clampCursorState_buffer (c : ControllerState) :
    (clampCursorState c).state.buffer = c.state.buffer := rfl

theorem clampCursorState_cursor (c : ControllerState) :
    (clampCursorState c).state.cursor
      = clampToBuffer c.state.cursor c.state.buffer := rfl

/-- Claim C9: pressing p or P in normal mode while the register still holds its
initial empty string leaves the buffer and the cursor unchanged —
pasteFromRegister returns immediately on an empty register. -/
theorem c9_paste_empty_register_noop (c : ControllerState) (k : String)
    (hmode : c.state.mode = Mode.normal) (hreg : c.register = [])
    (hk : k = "p" ∨ k = "P")
    (hrow : c.state.cursor.row < c.state.buffer.length)
    (hcol : c.state.cursor.col ≤ getLineLength c.state.buffer c.state.cursor.row) :
    (processKeyboardEvent c (keyEv k)).state.buffer = c.state.buffer
    ∧ (processKeyboardEvent c (keyEv k)).state.cursor = c.state.cursor := by
  obtain ⟨⟨m, cur, buf, sel⟩, reg, um, nr, vr⟩ := c
  simp only at hmode hreg hrow hcol
  subst hmode
  subst hreg
  rcases hk with hk | hk <;> subst hk
  · have h1 : processKeyboardEvent ⟨⟨Mode.normal, cur, buf, sel⟩, [], um, nr, vr⟩ (keyEv "p")
        = clampCursorState (dispatchResolved
            ⟨⟨Mode.normal, cur, buf, sel⟩, [], um, ⟨[], none⟩, vr⟩ (keyEv "p")
            (some ⟨Cmd.normalKey "p", false, false⟩)) := rfl
    rw [h1]
    constructor
    · rw [clampCursorState_buffer, dispatchResolved_some_state]
      rfl
    · rw [clampCursorState_cursor, dispatchResolved_some_state]
      show clampToBuffer cur buf = cur
      exact clampToBuffer_eq_self cur buf hrow hcol
  · have h1 : processKeyboardEvent ⟨⟨Mode.normal, cur, buf, sel⟩, [], um, nr, vr⟩ (keyEv "P")
        = clampCursorState (dispatchResolved
            ⟨⟨Mode.normal, cur, buf, sel⟩, [], um, ⟨[], none⟩, vr⟩ (keyEv "P")
            (some ⟨Cmd.normalKey "P", false, false⟩)) := rfl
    rw [h1]
    constructor
    · rw [clampCursorState_buffer, dispatchResolved_some_state]
      rfl
    · rw [clampCursorState_cursor, dispatchResolved_some_state]
      show clampToBuffer cur buf = cur
      exact clampToBuffer_eq_self cur buf hrow hcol

/-- Witness for C9 on the buffer "hi" with a never-written register. -/
theorem c9_paste_empty_register_noop_witness :
    (processKeyboardEvent (initController ['h', 'i'] 0 1 Mode.normal)
        (keyEv "p")).state.buffer = [['h', 'i']]
    ∧ (processKeyboardEvent (initController ['h', 'i'] 0 1 Mode.normal)
        (keyEv "p")).state.cursor = ⟨0, 1⟩ := by
  have h := c9_paste_empty_register_noop (initController ['h', 'i'] 0 1 Mode.normal)
    "p" (by decide) (by decide) (Or.inl rfl) (by decide) (by decide)
  exact ⟨h.1.trans (by decide), h.2.trans (by decide)⟩

/-- Claim C10: a visual character selection from (0,0) on "ab" down to the
empty second line yanks "ab\n" into the register — a charwise selection whose
register text nevertheless ends in a newline — so the subsequent paste runs
the linewise branch and inserts a whole line instead of splicing into the
current line. -/
theorem c10_charwise_yank_ending_on_empty_line_pastes_linewise :
    (processEvents (initController ['a', 'b', '\n'] 0 0 Mode.normal)
        [keyEv "v", keyEv "j", keyEv "y"]).register = ['a', 'b', '\n']
    ∧ (processEvents (initController ['a', 'b', '\n'] 0 0 Mode.normal)
        [keyEv "v", keyEv "j", keyEv "y"]).register.getLast? = some '\n'
    ∧ (processEvents (initController ['a', 'b', '\n'] 0 0 Mode.normal)
        [keyEv "v", keyEv "j", keyEv "y", keyEv "p"]).state.buffer
      = [['a', 'b'], [], ['a', 'b']]
    ∧ (processEvents (initController ['a', 'b', '\n'] 0 0 Mode.normal)
        [keyEv "v", keyEv "j", keyEv "y", keyEv "p"]).state.cursor = ⟨2, 0⟩ := by
  refine ⟨by decide, by decide, by decide, by decide⟩

theorem getLineText_set_self (b : Buffer) (row : Nat) (t : Line)
    (h : row < b.length) : getLineText (setLineText b row t) row = t := by
  unfold getLineText setLineText
  rw [List.getD_eq_getElem _ _ (by simpa using h)]
  simp

theorem splitOn_single_of_not_mem (x : Char) (l : List Char) (h : x ∉ l) :
    l.splitOn x = [l] := by
  show l.splitOnP (· == x) = [l]
  apply List.splitOnP_eq_single
  intro y hy
  simp only [beq_iff_eq]
  exact fun he => h (he ▸ hy)

theorem splice_restores (t : List Char) (cs ce : Nat) (hcs : cs ≤ ce)
    (hce : ce ≤ t.length) :
    (t.take cs ++ t.drop ce).take cs
      ++ lineSlice t cs ce ++ (t.take cs ++ t.drop ce).drop cs = t := by
  have hcsl : cs ≤ t.length := le_trans hcs hce
  have htake : (t.take cs ++ t.drop ce).take cs = t.take cs := by
    rw [List.take_append_eq_append_take]
    have h1 : (t.take cs).take cs = t.take cs := by simp
    have h2 : cs - (t.take cs).length = 0 := by
      simp only [List.length_take]
      omega
    rw [h1, h2]
    simp
  have hdrop : (t.take cs ++ t.drop ce).drop cs = t.drop ce := by
    rw [List.drop_append_eq_append_drop]
    have h1 : (t.take cs).drop cs = [] := by
      apply List.drop_eq_nil_of_le
      simp only [List.length_take]
      omega
    have h2 : cs - (t.take cs).length = 0 := by
      simp only [List.length_take]
      omega
    rw [h1, h2]
    simp
  rw [htake, hdrop, List.append_assoc]
  unfold lineSlice
  have h3 : t.drop ce = t.drop (cs + (ce - cs)) := by
    have h4 : cs + (ce - cs) = ce := by omega
    rw [h4]
  rw [h3, List.drop_take_append_drop]
  exact List.take_append_drop cs t

/-- Counterexample for C8: on the line "abcd", deleting the interior character
range [1,3) (the slice "bc") and pasting with p at the resulting cursor yields
"adbc", not the original line — `p` pastes after the cursor column. -/
theorem c8_counterexample_p_after_interior_delete :
    getLineText (pasteFromRegister
        (deleteCharacterRange ⟨Mode.normal, ⟨0, 1⟩, [['a', 'b', 'c', 'd']], none⟩ [] 0 1 3).1
        (deleteCharacterRange ⟨Mode.normal, ⟨0, 1⟩, [['a', 'b', 'c', 'd']], none⟩ [] 0 1 3).2
        false).buffer 0
      = ['a', 'd', 'b', 'c']
    ∧ getLineText (pasteFromRegister
        (deleteCharacterRange ⟨Mode.normal, ⟨0, 1⟩, [['a', 'b', 'c', 'd']], none⟩ [] 0 1 3).1
        (deleteCharacterRange ⟨Mode.normal, ⟨0, 1⟩, [['a', 'b', 'c', 'd']], none⟩ [] 0 1 3).2
        false).buffer 0
      ≠ getLineText (⟨Mode.normal, ⟨0, 1⟩, [['a', 'b', 'c', 'd']], none⟩ : EditorState).buffer 0 := by
  exact ⟨by decide, by decide⟩

/-- Claim C8 as amended: deleting a non-empty character range from a line
(which leaves the cursor at the clamped range start and the deleted slice in
the register) and pasting with `P` at the resulting cursor location reproduces
the original line exactly; pasting with `p` reproduces it only when the
deleted range extended to the end of the line. -/
theorem c8_amended_delete_then_paste_restores (s : EditorState) (reg : List Char)
    (row sc ec cs ce : Nat)
    (hrow : row < s.buffer.length)
    (hnl : Char.ofNat 10 ∉ getLineText s.buffer row)
    (hcs : cs = clampNumber sc 0 (getLineText s.buffer row).length)
    (hce : ce = clampNumber ec cs (getLineText s.buffer row).length)
    (hlt : cs < ce) :
    ((deleteCharacterRange s reg row sc ec).1.cursor = ⟨row, cs⟩)
    ∧ ((deleteCharacterRange s reg row sc ec).2
        = lineSlice (getLineText s.buffer row) cs ce)
    ∧ (getLineText (pasteFromRegister (deleteCharacterRange s reg row sc ec).1
        (deleteCharacterRange s reg row sc ec).2 true).buffer row
        = getLineText s.buffer row)
    ∧ (ce = (getLineText s.buffer row).length →
       getLineText (pasteFromRegister (deleteCharacterRange s reg row sc ec).1
        (deleteCharacterRange s reg row sc ec).2 false).buffer row
        = getLineText s.buffer row) := by
  have hcsle : cs ≤ (getLineText s.buffer row).length := by
    rw [hcs]
    unfold clampNumber
    omega
  have hcele : ce ≤ (getLineText s.buffer row).length := by
    rw [hce]
    unfold clampNumber
    omega
  have hcsce : cs ≤ ce := le_of_lt hlt
  have hb1len : (setLineText s.buffer row
      ((getLineText s.buffer row).take cs ++ (getLineText s.buffer row).drop ce)).length
      = s.buffer.length := by
    simp [setLineText]
  have hupd : getLineText (setLineText s.buffer row
      ((getLineText s.buffer row).take cs ++ (getLineText s.buffer row).drop ce)) row
      = (getLineText s.buffer row).take cs ++ (getLineText s.buffer row).drop ce :=
    getLineText_set_self _ _ _ hrow
  have hupdlen : ((getLineText s.buffer row).take cs
      ++ (getLineText s.buffer row).drop ce).length
      = cs + ((getLineText s.buffer row).length - ce) := by
    simp only [List.length_append, List.length_take, List.length_drop]
    omega
  have hdel : deleteCharacterRange s reg row sc ec =
      ({ s with
          buffer := setLineText s.buffer row
            ((getLineText s.buffer row).take cs ++ (getLineText s.buffer row).drop ce),
          cursor := ⟨row, cs⟩ },
       lineSlice (getLineText s.buffer row) cs ce) := by
    simp only [deleteCharacterRange]
    rw [← hcs, ← hce]
    rw [if_neg (by omega)]
    have hpos : setPosition row cs (setLineText s.buffer row
        ((getLineText s.buffer row).take cs ++ (getLineText s.buffer row).drop ce))
        = ⟨row, cs⟩ := by
      apply setPosition_eq
      · rw [hb1len]
        exact hrow
      · unfold getLineLength
        rw [hupd, hupdlen]
        omega
    rw [hpos]
  have hslice_len : (lineSlice (getLineText s.buffer row) cs ce).length = ce - cs := by
    simp only [lineSlice, List.length_take, List.length_drop]
    omega
  have hslice_ne : lineSlice (getLineText s.buffer row) cs ce ≠ [] := by
    intro hh
    rw [hh] at hslice_len
    simp at hslice_len
    omega
  have hslice_nl : Char.ofNat 10 ∉ lineSlice (getLineText s.buffer row) cs ce := by
    intro hx
    exact hnl (List.drop_subset _ _ (List.take_subset _ _ hx))
  have hlast : ¬((lineSlice (getLineText s.buffer row) cs ce).getLast?
      = some (Char.ofNat 10)) :=
    fun hh => hslice_nl (List.mem_of_mem_getLast? hh)
  have hins : ∀ pos : Nat, clampNumber pos 0 (((getLineText s.buffer row).take cs
        ++ (getLineText s.buffer row).drop ce).length) = cs →
      getLineText (insertTextAtPosition
        { s with
          buffer := setLineText s.buffer row
            ((getLineText s.buffer row).take cs ++ (getLineText s.buffer row).drop ce),
          cursor := ⟨row, cs⟩ }
        row pos (lineSlice (getLineText s.buffer row) cs ce)).buffer row
      = getLineText s.buffer row := by
    intro pos hcc
    simp only [insertTextAtPosition]
    rw [splitOn_single_of_not_mem _ _ hslice_nl]
    rw [if_pos (List.length_singleton _)]
    simp only [hupd]
    rw [hcc]
    rw [getLineText_set_self _ _ _ (by rw [hb1len]; exact hrow)]
    exact splice_restores _ cs ce hcsce hcele
  refine ⟨by rw [hdel], by rw [hdel], ?_, ?_⟩
  · rw [hdel]
    simp only [pasteFromRegister]
    rw [if_neg hslice_ne, if_neg hlast]
    exact hins cs (by unfold clampNumber; rw [hupdlen]; omega)
  · intro hceq
    rw [hdel]
    simp only [pasteFromRegister]
    rw [if_neg hslice_ne, if_neg hlast]
    exact hins (cs + 1) (by unfold clampNumber; rw [hupdlen]; omega)

/-- Witness for the amended C8: on "abcd", deleting [1,3) then pasting with P
restores the line, and deleting [1,4) (through end of line) then pasting with
p also restores it. -/
theorem c8_amended_delete_then_paste_restores_witness :
    getLineText (pasteFromRegister
        (deleteCharacterRange ⟨Mode.normal, ⟨0, 1⟩, [['a', 'b', 'c', 'd']], none⟩ [] 0 1 3).1
        (deleteCharacterRange ⟨Mode.normal, ⟨0, 1⟩, [['a', 'b', 'c', 'd']], none⟩ [] 0 1 3).2
        true).buffer 0
      = ['a', 'b', 'c', 'd']
    ∧ getLineText (pasteFromRegister
        (deleteCharacterRange ⟨Mode.normal, ⟨0, 1⟩, [['a', 'b', 'c', 'd']], none⟩ [] 0 1 4).1
        (deleteCharacterRange ⟨Mode.normal, ⟨0, 1⟩, [['a', 'b', 'c', 'd']], none⟩ [] 0 1 4).2
        false).buffer 0
      = ['a', 'b', 'c', 'd'] := by
  have h1 := c8_amended_delete_then_paste_restores
    ⟨Mode.normal, ⟨0, 1⟩, [['a', 'b', 'c', 'd']], none⟩ [] 0 1 3 1 3
    (by decide) (by decide) (by decide) (by decide) (by decide)
  have h2 := c8_amended_delete_then_paste_restores
    ⟨Mode.normal, ⟨0, 1⟩, [['a', 'b', 'c', 'd']], none⟩ [] 0 1 4 1 4
    (by decide) (by decide) (by decide) (by decide) (by decide)
  exact ⟨h1.2.2.1.trans (by decide), (h2.2.2.2 (by decide)).trans (by decide)⟩

theorem normalResolve_digit (cb : List Char) (po : Option PendingOp) (ch : Char)
    (hdig : ('0' ≤ ch ∧ ch ≤ '9')) (h0 : cb = [] → ch ≠ '0') :
    normalResolve ⟨cb, po⟩ (charEvent ch) = (⟨cb ++ [ch], po⟩, none) := by
  have hd1 : decide ('0' ≤ ch) = true := decide_eq_true hdig.1
  have hd2 : decide (ch ≤ '9') = true := decide_eq_true hdig.2
  have hz : shouldTreatZeroAsMotion cb (String.singleton ch) = false := by
    by_cases hch : ch = '0'
    · subst hch
      have hcb : cb ≠ [] := fun hh => (h0 hh) rfl
      simp [shouldTreatZeroAsMotion, hcb]
    · have hne : String.singleton ch ≠ "0" := by
        intro hh
        exact hch ((singleton_eq_iff ch '0').mp hh)
      simp [shouldTreatZeroAsMotion, hne]
  simp only [normalResolve, charEvent, isPureModifier_singleton, isDigitKey_singleton,
    hd1, hd2, hz, Bool.false_eq_true, Bool.and_self, if_false, if_true, Bool.true_eq_false]
  simp [String.singleton]

theorem process_digit_appends (c : ControllerState) (ch : Char)
    (hmode : c.state.mode = Mode.normal)
    (hdig : ('0' ≤ ch ∧ ch ≤ '9'))
    (h0 : c.normal.countBuffer = [] → ch ≠ '0')
    (hrow : c.state.cursor.row < c.state.buffer.length)
    (hcol : c.state.cursor.col ≤ getLineLength c.state.buffer c.state.cursor.row) :
    processKeyboardEvent c (charEvent ch)
      = { c with normal := ⟨c.normal.countBuffer ++ [ch], c.normal.pendingOperator⟩ } := by
  obtain ⟨⟨m, cur, buf, sel⟩, reg, um, ⟨cb, po⟩, vr⟩ := c
  simp only at hmode hrow hcol h0
  subst hmode
  have hres := normalResolve_digit cb po ch hdig h0
  simp only [processKeyboardEvent, keyMapperResolve, hres]
  simp only [dispatchResolved]
  exact clampCursorState_eq_self _ hrow hcol

theorem process_digits_append (ds : List Char) (c : ControllerState)
    (hmode : c.state.mode = Mode.normal)
    (hdigs : ∀ ch ∈ ds, ('0' ≤ ch ∧ ch ≤ '9'))
    (h0 : c.normal.countBuffer = [] → ds.head? ≠ some '0')
    (hrow : c.state.cursor.row < c.state.buffer.length)
    (hcol : c.state.cursor.col ≤ getLineLength c.state.buffer c.state.cursor.row) :
    processEvents c (ds.map charEvent)
      = { c with normal := ⟨c.normal.countBuffer ++ ds, c.normal.pendingOperator⟩ } := by
  induction ds generalizing c with
  | nil =>
    obtain ⟨st, reg, um, ⟨cb, po⟩, vr⟩ := c
    simp [processEvents]
  | cons ch ds ih =>
    have hstep := process_digit_appends c ch hmode ⟨(hdigs ch (by simp)).1, (hdigs ch (by simp)).2⟩
      (fun hh => by
        have := h0 hh
        simp only [List.head?] at this
        exact fun he => this (by rw [he])) hrow hcol
    have hfold : processEvents c ((ch :: ds).map charEvent)
        = processEvents (processKeyboardEvent c (charEvent ch)) (ds.map charEvent) := by
      simp [processEvents]
    rw [hfold, hstep]
    rw [ih _ (by simpa using hmode) (fun x hx => hdigs x (by simp [hx])) (by simp) (by simpa using hrow) (by simpa using hcol)]
    obtain ⟨st, reg, um, ⟨cb, po⟩, vr⟩ := c
    simp

theorem process_d_sets_pending_delete (c : ControllerState)
    (hmode : c.state.mode = Mode.normal) (hnr : c.normal = ⟨[], none⟩)
    (hrow : c.state.cursor.row < c.state.buffer.length)
    (hcol : c.state.cursor.col ≤ getLineLength c.state.buffer c.state.cursor.row) :
    processKeyboardEvent c (keyEv "d")
      = { c with normal := ⟨[], some PendingOp.delete⟩ } := by
  obtain ⟨⟨m, cur, buf, sel⟩, reg, um, nr, vr⟩ := c
  simp only at hmode hrow hcol hnr
  subst hmode
  subst hnr
  have h1 : processKeyboardEvent
      ⟨⟨Mode.normal, cur, buf, sel⟩, reg, um, ⟨[], none⟩, vr⟩ (keyEv "d")
      = clampCursorState
        ⟨⟨Mode.normal, cur, buf, sel⟩, reg, um, ⟨[], some PendingOp.delete⟩, vr⟩ := rfl
  rw [h1]
  exact clampCursorState_eq_self _ hrow hcol

/-- Claim C1: in normal mode, the key sequence d, count digits, j deletes the
inclusive line range [row, row+n-1] clamped to the last buffer row (refilling
with a single empty line if everything was deleted), and the cursor lands on
row min(row, new last row) with its column re-clamped to that line's length. -/
theorem c1_d_count_j_deletes_line_range (c : ControllerState) (ds : List Char) (n : Nat)
    (hmode : c.state.mode = Mode.normal)
    (hnr : c.normal = ⟨[], none⟩)
    (hrow : c.state.cursor.row < c.state.buffer.length)
    (hcol : c.state.cursor.col ≤ getLineLength c.state.buffer c.state.cursor.row)
    (hds : ds ≠ [])
    (hdigs : ∀ ch ∈ ds, ('0' ≤ ch ∧ ch ≤ '9'))
    (hhead : ds.head? ≠ some '0')
    (hn : parseDigits ds = n)
    (hpos : 1 ≤ n) :
    (processEvents c (keyEv "d" :: (ds.map charEvent ++ [keyEv "j"]))).state.buffer
      = (if c.state.buffer.take c.state.cursor.row
            ++ c.state.buffer.drop
                (min (c.state.cursor.row + n - 1) (c.state.buffer.length - 1) + 1) = []
         then [([] : Line)]
         else c.state.buffer.take c.state.cursor.row
            ++ c.state.buffer.drop
                (min (c.state.cursor.row + n - 1) (c.state.buffer.length - 1) + 1))
    ∧ (processEvents c (keyEv "d" :: (ds.map charEvent ++ [keyEv "j"]))).state.cursor
      = ⟨min c.state.cursor.row
            ((processEvents c (keyEv "d" :: (ds.map charEvent ++ [keyEv "j"]))).state.buffer.length - 1),
         min c.state.cursor.col
            (getLineLength (processEvents c (keyEv "d" :: (ds.map charEvent ++ [keyEv "j"]))).state.buffer
              (min c.state.cursor.row
                ((processEvents c (keyEv "d" :: (ds.map charEvent ++ [keyEv "j"]))).state.buffer.length - 1)))⟩ := by
  obtain ⟨⟨m, ⟨crow, ccol⟩, buf, sel⟩, reg, um, nr, vr⟩ := c
  simp only at hmode hrow hcol hnr ⊢
  subst hmode
  subst hnr
  have hbne : buf ≠ [] := by
    intro hh
    rw [hh] at hrow
    simp at hrow
  have hfold : processEvents ⟨⟨Mode.normal, ⟨crow, ccol⟩, buf, sel⟩, reg, um, ⟨[], none⟩, vr⟩
      (keyEv "d" :: (ds.map charEvent ++ [keyEv "j"]))
      = processKeyboardEvent (processEvents (processKeyboardEvent
          ⟨⟨Mode.normal, ⟨crow, ccol⟩, buf, sel⟩, reg, um, ⟨[], none⟩, vr⟩ (keyEv "d"))
          (ds.map charEvent)) (keyEv "j") := by
    simp [processEvents, List.foldl_append]
  rw [hfold]
  rw [process_d_sets_pending_delete _ rfl rfl hrow hcol]
  rw [process_digits_append ds _ rfl hdigs (fun _ => hhead) hrow hcol]
  simp only [List.nil_append]
  have hcnt : consumeCount ds = n := by
    unfold consumeCount
    rw [if_neg hds, hn]
  have hj : processKeyboardEvent
      ⟨⟨Mode.normal, ⟨crow, ccol⟩, buf, sel⟩, reg, um, ⟨ds, some PendingOp.delete⟩, vr⟩
      (keyEv "j")
      = clampCursorState (dispatchResolved
          ⟨⟨Mode.normal, ⟨crow, ccol⟩, buf, sel⟩, reg, um, ⟨[], none⟩, vr⟩ (keyEv "j")
          (some ⟨Cmd.deleteWithMotion "j" (consumeCount ds), false, false⟩)) := rfl
  rw [hj, hcnt]
  have hstate : (dispatchResolved
      ⟨⟨Mode.normal, ⟨crow, ccol⟩, buf, sel⟩, reg, um, ⟨[], none⟩, vr⟩ (keyEv "j")
      (some ⟨Cmd.deleteWithMotion "j" n, false, false⟩)).state
      = (deleteLineRange ⟨Mode.normal, ⟨crow, ccol⟩, buf, sel⟩ crow
          (clampNumber (crow + max 1 (max 1 n) - 1) 0 (lineCount buf - 1))).1 := by
    rw [dispatchResolved_some_state]
    rfl
  have hdelr := deleteLineRange_eq ⟨Mode.normal, ⟨crow, ccol⟩, buf, sel⟩ crow
    (clampNumber (crow + max 1 (max 1 n) - 1) 0 (lineCount buf - 1)) hbne
  have hE : clampNumber (crow + max 1 (max 1 n) - 1) 0 (lineCount buf - 1)
      = min (crow + n - 1) (buf.length - 1) := by
    unfold clampNumber lineCount
    omega
  have hns : min crow (min (crow + n - 1) (buf.length - 1)) = crow := by omega
  have hne2 : min (max crow (min (crow + n - 1) (buf.length - 1))) (buf.length - 1)
      = min (crow + n - 1) (buf.length - 1) := by omega
  rw [hE] at hdelr
  rw [hns, hne2] at hdelr
  have hbuf2 : (deleteLineRange ⟨Mode.normal, ⟨crow, ccol⟩, buf, sel⟩ crow
      (min (crow + n - 1) (buf.length - 1))).1.buffer
      = (if buf.take crow ++ buf.drop (min (crow + n - 1) (buf.length - 1) + 1) = []
         then [([] : Line)]
         else buf.take crow ++ buf.drop (min (crow + n - 1) (buf.length - 1) + 1)) := by
    rw [hdelr]
  have hcur2 : (deleteLineRange ⟨Mode.normal, ⟨crow, ccol⟩, buf, sel⟩ crow
      (min (crow + n - 1) (buf.length - 1))).1.cursor
      = ⟨min crow ((if buf.take crow ++ buf.drop (min (crow + n - 1) (buf.length - 1) + 1) = []
            then [([] : Line)]
            else buf.take crow ++ buf.drop (min (crow + n - 1) (buf.length - 1) + 1)).length - 1),
         min ccol (getLineLength
            (if buf.take crow ++ buf.drop (min (crow + n - 1) (buf.length - 1) + 1) = []
             then [([] : Line)]
             else buf.take crow ++ buf.drop (min (crow + n - 1) (buf.length - 1) + 1))
            (min crow ((if buf.take crow ++ buf.drop (min (crow + n - 1) (buf.length - 1) + 1) = []
              then [([] : Line)]
              else buf.take crow ++ buf.drop (min (crow + n - 1) (buf.length - 1) + 1)).length - 1)))⟩ := by
    rw [hdelr]
  constructor
  · rw [clampCursorState_buffer, hstate, hE, hbuf2]
  · rw [clampCursorState_cursor, clampCursorState_buffer, hstate, hE, hbuf2, hcur2]
    apply clampToBuffer_eq_self
    · by_cases hrn : buf.take crow ++ buf.drop (min (crow + n - 1) (buf.length - 1) + 1) = []
      · rw [if_pos hrn]
        simp
      · rw [if_neg hrn]
        have hp : 1 ≤ (buf.take crow ++ buf.drop (min (crow + n - 1) (buf.length - 1) + 1)).length :=
          List.length_pos.mpr hrn
        simp only []
        omega
    · exact Nat.min_le_right _ _

/-- Witness for C1: buffer "a\nb\nc\nd\ne\nf", cursor (0,0), keys d,5,j give
content "f" and cursor (0,0). -/
theorem c1_d_count_j_deletes_line_range_witness :
    extractContent (processEvents
      (initController ['a', '\n', 'b', '\n', 'c', '\n', 'd', '\n', 'e', '\n', 'f'] 0 0 Mode.normal)
      (keyEv "d" :: (['5'].map charEvent ++ [keyEv "j"]))).state.buffer = ['f']
    ∧ (processEvents
      (initController ['a', '\n', 'b', '\n', 'c', '\n', 'd', '\n', 'e', '\n', 'f'] 0 0 Mode.normal)
      (keyEv "d" :: (['5'].map charEvent ++ [keyEv "j"]))).state.cursor = ⟨0, 0⟩ := by
  have h := c1_d_count_j_deletes_line_range
    (initController ['a', '\n', 'b', '\n', 'c', '\n', 'd', '\n', 'e', '\n', 'f'] 0 0 Mode.normal)
    ['5'] 5 (by decide) (by decide) (by decide) (by decide) (by decide) (by decide)
    (by decide) (by decide) (by decide)
  exact ⟨(congrArg extractContent h.1).trans (by decide), h.2.trans (by decide)⟩

theorem clampToBuffer_idem (p : CursorPosition) (b : Buffer) (hb : b ≠ []) :
    clampToBuffer (clampToBuffer p b) b = clampToBuffer p b :=
  clampToBuffer_eq_self _ _ (clampToBuffer_row_lt p b hb) (clampToBuffer_col_le p b)

theorem extractContent_replaceContent (x : List Char) :
    extractContent (replaceContent x) = x := by
  unfold extractContent replaceContent
  apply List.intercalate_splitOn

theorem singleton_not_insertKeymapKey (ch : Char) :
    ¬(String.singleton ch ∈ insertKeymapKeys) := by
  have h1 := singleton_ne_of_data_length ch "Escape" (by decide)
  have h2 := singleton_ne_of_data_length ch "Backspace" (by decide)
  have h3 := singleton_ne_of_data_length ch "Delete" (by decide)
  have h4 := singleton_ne_of_data_length ch "Enter" (by decide)
  have h5 := singleton_ne_of_data_length ch "Tab" (by decide)
  simp [insertKeymapKeys, h1, h2, h3, h4, h5]

theorem keyMapper_insert_char (c : ControllerState) (ch : Char)
    (hmode : c.state.mode = Mode.insert) :
    keyMapperResolve c (charEvent ch)
      = (c, some ⟨Cmd.insertText (String.singleton ch), false, false⟩) := by
  obtain ⟨⟨m, cur, buf, sel⟩, reg, um, nr, vr⟩ := c
  simp only at hmode
  subst hmode
  simp only [keyMapperResolve]
  have hmk : makeKey (charEvent ch) = String.singleton ch := rfl
  rw [hmk, if_neg (singleton_not_insertKeymapKey ch)]
  rw [if_pos (show (charEvent ch).key.data.length = 1 from rfl)]
  rfl

theorem process_insert_char (c : ControllerState) (ch : Char)
    (hmode : c.state.mode = Mode.insert)
    (hpend : c.undoMgr.pendingSnapshot ≠ none)
    (hbne : c.state.buffer ≠ []) :
    processKeyboardEvent c (charEvent ch)
      = { c with state := execInsertText c.state (String.singleton ch) } := by
  obtain ⟨⟨m, cur, buf, sel⟩, reg, ⟨us, rs, ps⟩, nr, vr⟩ := c
  simp only at hmode hpend hbne
  subst hmode
  cases ps with
  | none => exact absurd rfl hpend
  | some p =>
    have hres := keyMapper_insert_char
      ⟨⟨Mode.insert, cur, buf, sel⟩, reg, ⟨us, rs, some p⟩, nr, vr⟩ ch rfl
    have h1 : processKeyboardEvent
        ⟨⟨Mode.insert, cur, buf, sel⟩, reg, ⟨us, rs, some p⟩, nr, vr⟩ (charEvent ch)
        = clampCursorState (dispatchResolved
            ⟨⟨Mode.insert, cur, buf, sel⟩, reg, ⟨us, rs, some p⟩, nr, vr⟩ (charEvent ch)
            (some ⟨Cmd.insertText (String.singleton ch), false, false⟩)) := by
      simp only [processKeyboardEvent, hres]
    rw [h1]
    have h2 : dispatchResolved
        ⟨⟨Mode.insert, cur, buf, sel⟩, reg, ⟨us, rs, some p⟩, nr, vr⟩ (charEvent ch)
        (some ⟨Cmd.insertText (String.singleton ch), false, false⟩)
        = { state := execInsertText ⟨Mode.insert, cur, buf, sel⟩ (String.singleton ch),
            register := reg, undoMgr := ⟨us, rs, some p⟩, normal := nr, visual := vr } := rfl
    rw [h2]
    show clampCursorState _ = _
    unfold clampCursorState
    simp only [execInsertText]
    rw [setPosition, clampToBuffer_idem]
    simp [setLineText]
    intro hh
    rw [hh] at hbne
    simp at hbne

theorem process_insert_chars (cs : List Char) (c : ControllerState)
    (hmode : c.state.mode = Mode.insert)
    (hpend : c.undoMgr.pendingSnapshot ≠ none)
    (hbne : c.state.buffer ≠ []) :
    ∃ st : EditorState,
      processEvents c (cs.map charEvent) = { c with state := st }
      ∧ st.mode = Mode.insert ∧ st.buffer ≠ [] := by
  induction cs generalizing c with
  | nil =>
    refine ⟨c.state, ?_, hmode, hbne⟩
    simp [processEvents]
  | cons ch cs ih =>
    have hstep := process_insert_char c ch hmode hpend hbne
    have hfold : processEvents c ((ch :: cs).map charEvent)
        = processEvents (processKeyboardEvent c (charEvent ch)) (cs.map charEvent) := by
      simp [processEvents]
    have hmode2 : (execInsertText c.state (String.singleton ch)).mode = Mode.insert := by
      simp only [execInsertText]
      exact hmode
    have hbne2 : (execInsertText c.state (String.singleton ch)).buffer ≠ [] := by
      simp only [execInsertText, setLineText]
      intro hh
      rw [List.set_eq_nil_iff] at hh
      exact hbne hh
    obtain ⟨st, hrec, hm, hb⟩ := ih { c with state := execInsertText c.state (String.singleton ch) }
      hmode2 (by simpa using hpend) hbne2
    refine ⟨st, ?_, hm, hb⟩
    rw [hfold, hstep, hrec]

theorem process_i_starts_session (c : ControllerState)
    (hmode : c.state.mode = Mode.normal)
    (hpend : c.undoMgr.pendingSnapshot = none)
    (hrow : c.state.cursor.row < c.state.buffer.length)
    (hcol : c.state.cursor.col ≤ getLineLength c.state.buffer c.state.cursor.row) :
    processKeyboardEvent c (keyEv "i")
      = { c with
          state := { c.state with mode := Mode.insert },
          undoMgr := { c.undoMgr with pendingSnapshot := some (createSnapshot c.state) },
          normal := ⟨[], none⟩ } := by
  obtain ⟨⟨m, cur, buf, sel⟩, reg, ⟨us, rs, ps⟩, nr, vr⟩ := c
  simp only at hmode hpend hrow hcol
  subst hmode
  subst hpend
  have h1 : processKeyboardEvent
      ⟨⟨Mode.normal, cur, buf, sel⟩, reg, ⟨us, rs, none⟩, nr, vr⟩ (keyEv "i")
      = clampCursorState
        ⟨⟨Mode.insert, cur, buf, sel⟩, reg,
         ⟨us, rs, some (createSnapshot ⟨Mode.normal, cur, buf, sel⟩)⟩, ⟨[], none⟩, vr⟩ := rfl
  rw [h1]
  exact clampCursorState_eq_self _ hrow hcol

theorem process_escape_commits (c : ControllerState) (p : EditorSnapshot)
    (hmode : c.state.mode = Mode.insert)
    (hpend : c.undoMgr.pendingSnapshot = some p)
    (hbne : c.state.buffer ≠ []) :
    processKeyboardEvent c (keyEv "Escape")
      = { c with
          state := { mode := Mode.normal,
                     cursor := clampToBuffer c.state.cursor c.state.buffer,
                     buffer := c.state.buffer,
                     selection := none },
          undoMgr := { recordChange c.undoMgr p
              { mode := Mode.normal,
                cursor := clampToBuffer c.state.cursor c.state.buffer,
                buffer := c.state.buffer,
                selection := none } with pendingSnapshot := none } } := by
  obtain ⟨⟨m, cur, buf, sel⟩, reg, ⟨us, rs, ps⟩, nr, vr⟩ := c
  simp only at hmode hpend hbne
  subst hmode
  subst hpend
  have h1 : processKeyboardEvent
      ⟨⟨Mode.insert, cur, buf, sel⟩, reg, ⟨us, rs, some p⟩, nr, vr⟩ (keyEv "Escape")
      = clampCursorState
        ⟨⟨Mode.normal, clampToBuffer cur buf, buf, none⟩, reg,
         commitCompoundIfChanged ⟨us, rs, some p⟩ ⟨Mode.normal, clampToBuffer cur buf, buf, none⟩,
         nr, vr⟩ := rfl
  rw [h1]
  have h2 : commitCompoundIfChanged ⟨us, rs, some p⟩
      ⟨Mode.normal, clampToBuffer cur buf, buf, none⟩
      = { recordChange ⟨us, rs, some p⟩ p
            ⟨Mode.normal, clampToBuffer cur buf, buf, none⟩ with pendingSnapshot := none } := rfl
  rw [h2]
  have h3 := clampToBuffer_idem cur buf hbne
  unfold clampCursorState
  simp only [h3]

/-- Claim C7: an insert session — entering insert mode with i from normal
mode, typing N printable characters, then Escape — pushes exactly one entry
(the pre-session snapshot) onto the undo stack, and only if the content
actually changed; the keystrokes inside the session are never recorded
separately, the pending compound is cleared, and when the content changed a
single subsequent u restores the pre-session content. -/
theorem c7_insert_session_single_undo_entry (c : ControllerState) (cs : List Char)
    (hmode : c.state.mode = Mode.normal)
    (hpend : c.undoMgr.pendingSnapshot = none)
    (hrow : c.state.cursor.row < c.state.buffer.length)
    (hcol : c.state.cursor.col ≤ getLineLength c.state.buffer c.state.cursor.row) :
    ((processEvents c (keyEv "i" :: (cs.map charEvent ++ [keyEv "Escape"]))).undoMgr.undoStack
      = (if extractContent c.state.buffer
            ≠ extractContent (processEvents c
                (keyEv "i" :: (cs.map charEvent ++ [keyEv "Escape"]))).state.buffer
         then createSnapshot c.state :: c.undoMgr.undoStack
         else c.undoMgr.undoStack))
    ∧ (processEvents c (keyEv "i" :: (cs.map charEvent ++ [keyEv "Escape"]))).undoMgr.pendingSnapshot
        = none
    ∧ (processEvents c (keyEv "i" :: (cs.map charEvent ++ [keyEv "Escape"]))).state.mode
        = Mode.normal
    ∧ (extractContent c.state.buffer
        ≠ extractContent (processEvents c
            (keyEv "i" :: (cs.map charEvent ++ [keyEv "Escape"]))).state.buffer →
       extractContent (processKeyboardEvent
          (processEvents c (keyEv "i" :: (cs.map charEvent ++ [keyEv "Escape"])))
          (keyEv "u")).state.buffer
        = extractContent c.state.buffer) := by
  obtain ⟨⟨m, cur, buf, sel⟩, reg, ⟨us, rs, ps⟩, nr, vr⟩ := c
  simp only at hmode hpend hrow hcol ⊢
  subst hmode
  subst hpend
  have hbne : buf ≠ [] := by
    intro hh
    rw [hh] at hrow
    simp at hrow
  have hfold : processEvents ⟨⟨Mode.normal, cur, buf, sel⟩, reg, ⟨us, rs, none⟩, nr, vr⟩
      (keyEv "i" :: (cs.map charEvent ++ [keyEv "Escape"]))
      = processKeyboardEvent (processEvents (processKeyboardEvent
          ⟨⟨Mode.normal, cur, buf, sel⟩, reg, ⟨us, rs, none⟩, nr, vr⟩ (keyEv "i"))
          (cs.map charEvent)) (keyEv "Escape") := by
    simp [processEvents, List.foldl_append]
  rw [hfold]
  rw [process_i_starts_session _ rfl rfl hrow hcol]
  obtain ⟨st, hrec, hm, hb⟩ := process_insert_chars cs
    ⟨⟨Mode.insert, cur, buf, sel⟩, reg,
     ⟨us, rs, some (createSnapshot ⟨Mode.normal, cur, buf, sel⟩)⟩, ⟨[], none⟩, vr⟩
    rfl (by simp) hbne
  rw [hrec]
  rw [process_escape_commits _ (createSnapshot ⟨Mode.normal, cur, buf, sel⟩) hm rfl hb]
  simp only [recordChange, createSnapshot]
  refine ⟨?_, trivial, trivial, ?_⟩
  · by_cases hch : extractContent buf ≠ extractContent st.buffer
    · rw [if_pos hch, if_pos hch]
    · rw [if_neg hch, if_neg hch]
  · intro hch
    rw [if_pos hch]
    have hu : processKeyboardEvent
        ⟨⟨Mode.normal, clampToBuffer st.cursor st.buffer, st.buffer, none⟩, reg,
         ⟨⟨extractContent buf, cur, Mode.normal, sel⟩ :: us, [], none⟩, ⟨[], none⟩, vr⟩
        (keyEv "u")
        = clampCursorState
          ⟨{ applySnapshot ⟨Mode.normal, clampToBuffer st.cursor st.buffer, st.buffer, none⟩
              ⟨extractContent buf, cur, Mode.normal, sel⟩ with mode := Mode.normal }, reg,
           ⟨us, [createSnapshot ⟨Mode.normal, clampToBuffer st.cursor st.buffer, st.buffer, none⟩],
            none⟩, ⟨[], none⟩, vr⟩ := rfl
    rw [hu]
    rw [clampCursorState_buffer]
    show extractContent (replaceContent (extractContent buf)) = extractContent buf
    exact extractContent_replaceContent _

/-- Witness for C7: on "Hi", the session i,!,?,Escape leaves one undo entry
and a single u restores "Hi". -/
theorem c7_insert_session_single_undo_entry_witness :
    (processEvents (initController ['H', 'i'] 0 0 Mode.normal)
        (keyEv "i" :: (['!', '?'].map charEvent ++ [keyEv "Escape"]))).undoMgr.undoStack.length = 1
    ∧ extractContent (processKeyboardEvent
        (processEvents (initController ['H', 'i'] 0 0 Mode.normal)
          (keyEv "i" :: (['!', '?'].map charEvent ++ [keyEv "Escape"])))
        (keyEv "u")).state.buffer = ['H', 'i'] := by
  have h := c7_insert_session_single_undo_entry (initController ['H', 'i'] 0 0 Mode.normal)
    ['!', '?'] (by decide) (by decide) (by decide) (by decide)
  exact ⟨(congrArg List.length h.1).trans (by decide),
         (h.2.2.2 (by decide)).trans (by decide)⟩

end ViMode
